import Mathlib

/-!
# Verification of the pump.fun signal-detection and paper-trading engine

A shallow embedding of the core of the `pumpdotfun` repository
(`src/utils/ringBuffer.ts`, `src/core/tokenTracker.ts`, `src/core/filters.ts`,
`src/core/signals.ts`, `src/core/scoring.ts`, `src/trading/position.ts`,
`src/trading/exitEngine.ts`, `src/trading/killSwitch.ts`,
`src/trading/entryEngine.ts`, `src/core/signalEngine.ts`, `src/config.ts`),
together with theorems settling the specification's claims about it.

Modelling conventions:
* JavaScript numbers are modelled as `Rat` (SOL amounts, prices, percentages,
  scores) and `Int` (Unix-millisecond timestamps); counters are `Nat`.
* `Date.now()` is modelled as an explicit `now : Int` argument threaded through
  each call, one value per JavaScript method call.
* JavaScript `Map`s are modelled as association lists with the helpers
  `alookup` / `aset` / `aerase` below; `Map.delete` is modelled as a filter
  (maps never hold a duplicated key, so removing all bindings of the key and
  removing the single one agree).
* The buy-size standard deviation is carried as its square (`buySizeStdSq`,
  the population variance): the source computes `std = Math.sqrt(variance)`
  and only ever compares `std` against nonnegative constants `c`, which is
  equivalent to comparing the variance against `c ^ 2`; the squared thresholds
  appear with the original constants in comments.
* String-typed enumerations of the source (`'open' | 'partial' | 'closed'`,
  the `ExitReason` union, entry-rejection reasons) are modelled as inductive
  types; constructor names are adjusted where the original word is a Lean
  keyword (`PosStatus.opened` for `'open'`, `PosStatus.partialed` for
  `'partial'`).
* Randomly generated position ids (`generatePositionId`) are modelled as an
  explicit `newId : String` argument.
-/

namespace PumpFun

/-- A parsed purchase event from the transaction feed (`src/types.ts`,
`Transaction`). -/
structure Transaction where
  tokenAddress : String
  timestamp : Int
  buyerWallet : String
  solAmount : Rat
  txHash : String
deriving DecidableEq

/-! ## Configuration (`src/config.ts`, `CONFIG`) -/

namespace CONFIG

def maxTokenAgeMinutes : Rat := 20
def minBuyersAfter5Min : Nat := 2

def windowShort : Int := 30 * 1000
def windowMedium : Int := 60 * 1000
def windowLong : Int := 180 * 1000
def windowBuyers : Int := 5 * 60 * 1000

def maxLargestBuy : Rat := 2
def maxAvgBuySize : Rat := 8/10
def minAvgBuySize : Rat := 3/100
def maxDevBuys : Nat := 1
def maxMetadataEdits : Nat := 1

def signalsMinBuyers5m : Nat := 6
def signalsMaxTxIntervalMean : Rat := 20
def signalsMinAvgBuySize : Rat := 5/100
def signalsMaxAvgBuySize : Rat := 5/10
def signalsMaxLargestBuy : Rat := 2
def signalsMinTxCount60s : Nat := 5

def entryMinScore : Rat := 18
def entryMinTokenAgeMinutes : Rat := 2
def entryMaxTokenAgeMinutes : Rat := 12
def entryMinMarketCapSOL : Rat := 3000
def entryMaxMarketCapSOL : Rat := 15000
def positionSizeSOL : Rat := 1

def partialProfitPercent : Rat := 120
def fullProfitPercent : Rat := 220
def partialExitPercent : Rat := 50
def noActivitySeconds : Int := 60
def txDecreaseThreshold : Nat := 2

def killNoTxSeconds : Int := 60
def whaleBuyThreshold : Rat := 3

def buyersWeight : Rat := 2
def accelerationWeight : Rat := 3
def repeatBuyersWeight : Rat := 2
def largestBuyPenalty : Rat := 5
def stagnationPenalty : Rat := 10

end CONFIG

/-! ## Association lists (the model of JavaScript `Map`) -/

/-- Lookup in an association list (`Map.get`). -/
def alookup {β : Type} (k : String) : List (String × β) → Option β
  | [] => none
  | (k2, v) :: rest => if k2 = k then some v else alookup k rest

/-- Insert or replace a binding (`Map.set`): overwrites in place if the key is
present, otherwise appends. -/
def aset {β : Type} (k : String) (v : β) : List (String × β) → List (String × β)
  | [] => [(k, v)]
  | (k2, v2) :: rest => if k2 = k then (k, v) :: rest else (k2, v2) :: aset k v rest

/-- Remove a binding (`Map.delete`); maps hold each key at most once, so
removing every binding of the key matches deleting the single one. -/
def aerase {β : Type} (k : String) : List (String × β) → List (String × β)
  | [] => []
  | (k2, v2) :: rest => if k2 = k then aerase k rest else (k2, v2) :: aerase k rest

/-! ## Multi-window buffer (`src/utils/ringBuffer.ts`, `MultiWindowBuffer`) -/

/-- Buy-size statistics over a window (`getBuySizeStats`); `stdSq` carries the
square of the source's `std` (the population variance). -/
structure BuySizeStats where
  avg : Rat
  stdSq : Rat
  max : Rat
deriving DecidableEq

/-- Insertion by non-decreasing timestamp, the model of the source's
`sort((a, b) => a.timestamp - b.timestamp)` (only timestamps of the sorted
list are consumed, so stability is immaterial). -/
def insertByTs (tx : Transaction) : List Transaction → List Transaction
  | [] => [tx]
  | hd :: tl => if tx.timestamp ≤ hd.timestamp then tx :: hd :: tl else hd :: insertByTs tx tl

def sortByTs (l : List Transaction) : List Transaction :=
  l.foldr insertByTs []

/-- Differences between consecutive elements. -/
def consecutiveDiffs : List Int → List Int
  | a :: b :: rest => (b - a) :: consecutiveDiffs (b :: rest)
  | _ => []

/-- Time-bounded store of a token's transactions; `maxWindowMs` is the longest
window kept (5 minutes). -/
structure MultiWindowBuffer where
  transactions : List Transaction
  maxWindowMs : Int
deriving DecidableEq

namespace MultiWindowBuffer

/-- `evictOld`: drop transactions older than the retention window. -/
def evictOld (b : MultiWindowBuffer) (now : Int) : MultiWindowBuffer :=
  { b with transactions := b.transactions.filter (fun tx => decide (tx.timestamp ≥ now - b.maxWindowMs)) }

/-- `add`: append a transaction, then evict. -/
def add (b : MultiWindowBuffer) (tx : Transaction) (now : Int) : MultiWindowBuffer :=
  evictOld { b with transactions := b.transactions ++ [tx] } now

/-- `getWindow`: the stored transactions at most `windowMs` old (boundary
inclusive: `tx.timestamp >= now - windowMs`). -/
def getWindow (b : MultiWindowBuffer) (windowMs now : Int) : List Transaction :=
  b.transactions.filter (fun tx => decide (tx.timestamp ≥ now - windowMs))

/-- `countWindow`. -/
def countWindow (b : MultiWindowBuffer) (windowMs now : Int) : Nat :=
  (getWindow b windowMs now).length

/-- `getRange`: transactions between `startMsAgo` and `endMsAgo` ago. -/
def getRange (b : MultiWindowBuffer) (startMsAgo endMsAgo now : Int) : List Transaction :=
  b.transactions.filter
    (fun tx => decide (tx.timestamp ≥ now - startMsAgo ∧ tx.timestamp ≤ now - endMsAgo))

/-- `countRange`. -/
def countRange (b : MultiWindowBuffer) (startMsAgo endMsAgo now : Int) : Nat :=
  (getRange b startMsAgo endMsAgo now).length

/-- `getUniqueBuyers` (the source builds a `Set`; its size is the length of
the deduplicated list of buyer wallets). -/
def getUniqueBuyers (b : MultiWindowBuffer) (windowMs now : Int) : List String :=
  ((getWindow b windowMs now).map Transaction.buyerWallet).dedup

/-- `getRepeatBuyers`: the number of wallets with at least 2 buys in the
window. -/
def getRepeatBuyers (b : MultiWindowBuffer) (windowMs now : Int) : Nat :=
  let buyers := (getWindow b windowMs now).map Transaction.buyerWallet
  (buyers.dedup.filter (fun w => decide (buyers.count w ≥ 2))).length

/-- `getBuySizeStats`: mean, population variance (see `BuySizeStats.stdSq`)
and maximum of the buy sizes in the window; all zero when empty. -/
def getBuySizeStats (b : MultiWindowBuffer) (windowMs now : Int) : BuySizeStats :=
  match getWindow b windowMs now with
  | [] => { avg := 0, stdSq := 0, max := 0 }
  | t0 :: rest =>
    let amounts := (t0 :: rest).map Transaction.solAmount
    let sum := amounts.foldl (· + ·) 0
    let avg := sum / (amounts.length : Rat)
    let mx := amounts.foldl max t0.solAmount
    let varSum := (amounts.map (fun x => (x - avg) ^ 2)).foldl (· + ·) 0
    { avg := avg, stdSq := varSum / (amounts.length : Rat), max := mx }

/-- `getTxIntervalMean`: mean gap in seconds between consecutive transactions
in the window; `none` models the source's `Infinity` for fewer than 2
transactions. -/
def getTxIntervalMean (b : MultiWindowBuffer) (windowMs now : Int) : Option Rat :=
  let txs := getWindow b windowMs now
  if txs.length < 2 then none
  else
    let sorted := sortByTs txs
    let total : Int := (consecutiveDiffs (sorted.map Transaction.timestamp)).foldl (· + ·) 0
    some ((total : Rat) / ((sorted.length : Rat) - 1) / 1000)

/-- `getTxIntervalDelta`: whether the latest gap between transactions in the
last 60 seconds is shorter than the one before (false with fewer than 3). -/
def getTxIntervalDelta (b : MultiWindowBuffer) (now : Int) : Bool :=
  let recentTxs := getWindow b 60000 now
  if recentTxs.length < 3 then false
  else
    match (sortByTs recentTxs).reverse with
    | c :: b2 :: a :: _ => decide (c.timestamp - b2.timestamp < b2.timestamp - a.timestamp)
    | _ => false

/-- `getAll` (after eviction). -/
def getAll (b : MultiWindowBuffer) (now : Int) : List Transaction :=
  (evictOld b now).transactions

end MultiWindowBuffer

/-! ## Rolling metrics and token tracker (`src/core/tokenTracker.ts`) -/

/-- Derived windowed metrics (`src/types.ts`, `RollingMetrics`); see
`BuySizeStats.stdSq` for the squared standard deviation and
`MultiWindowBuffer.getTxIntervalMean` for the `Option`-encoded `Infinity`. -/
structure RollingMetrics where
  txCount30s : Nat
  txCount60s : Nat
  txCount180s : Nat
  txCountPrev60s : Nat
  buyers5m : Nat
  repeatBuyers : Nat
  avgBuySize : Rat
  buySizeStdSq : Rat
  largestBuy : Rat
  txIntervalMean : Option Rat
  txIntervalDelta : Bool
  txAcceleration : Int
deriving DecidableEq

/-- Per-token lifecycle state (`TokenTracker`); `uniqueBuyers` models the
source's `Set<string>` as a duplicate-free list. -/
structure TokenTracker where
  tokenAddress : String
  firstSeenTimestamp : Int
  buffer : MultiWindowBuffer
  uniqueBuyers : List String
  dropped : Bool
  dropReason : Option String
  metadataEditCount : Nat
  devWallet : Option String
  devBuyCount : Nat
  lastTxTimestamp : Int
deriving DecidableEq

namespace TokenTracker

/-- `addTransaction`: ignored once dropped; otherwise records the transaction,
the buyer, the last-activity time, and the developer-wallet bookkeeping (the
first buyer is assumed to be the developer). -/
def addTransaction (t : TokenTracker) (tx : Transaction) (now : Int) : TokenTracker :=
  if t.dropped then t
  else
    { t with
      buffer := t.buffer.add tx now
      uniqueBuyers :=
        if tx.buyerWallet ∈ t.uniqueBuyers then t.uniqueBuyers
        else t.uniqueBuyers ++ [tx.buyerWallet]
      lastTxTimestamp := tx.timestamp
      devWallet := if t.devWallet = none then some tx.buyerWallet else t.devWallet
      devBuyCount :=
        match t.devWallet with
        | none => 1
        | some w => if tx.buyerWallet = w then t.devBuyCount + 1 else t.devBuyCount }

/-- The constructor: seed the tracker with its first transaction. -/
def create (tokenAddress : String) (firstTx : Transaction) (now : Int) : TokenTracker :=
  addTransaction
    { tokenAddress := tokenAddress
      firstSeenTimestamp := firstTx.timestamp
      buffer := { transactions := [], maxWindowMs := CONFIG.windowBuyers }
      uniqueBuyers := []
      dropped := false
      dropReason := none
      metadataEditCount := 0
      devWallet := none
      devBuyCount := 0
      lastTxTimestamp := firstTx.timestamp } firstTx now

/-- `drop(reason)`: one-way and idempotent; the first reason is kept. -/
def drop (t : TokenTracker) (reason : String) : TokenTracker :=
  if t.dropped then t else { t with dropped := true, dropReason := some reason }

/-- `getAgeMinutes`. -/
def getAgeMinutes (t : TokenTracker) (now : Int) : Rat :=
  ((now - t.firstSeenTimestamp : Int) : Rat) / (60 * 1000)

/-- `isExpired`: older than 20 minutes. -/
def isExpired (t : TokenTracker) (now : Int) : Bool :=
  decide (getAgeMinutes t now > CONFIG.maxTokenAgeMinutes)

/-- `shouldDropInactivity`: at least 5 minutes old with fewer than 2 unique
buyers. -/
def shouldDropInactivity (t : TokenTracker) (now : Int) : Bool :=
  decide (getAgeMinutes t now ≥ 5 ∧ t.uniqueBuyers.length < CONFIG.minBuyersAfter5Min)

/-- `calculateMetrics`: all rolling metrics at the evaluation instant. -/
def calculateMetrics (t : TokenTracker) (now : Int) : RollingMetrics :=
  let txCount30s := t.buffer.countWindow CONFIG.windowShort now
  let txCount60s := t.buffer.countWindow CONFIG.windowMedium now
  let txCount180s := t.buffer.countWindow CONFIG.windowLong now
  let txCountPrev60s := t.buffer.countRange 120000 60000 now
  let buyers5m := (t.buffer.getUniqueBuyers CONFIG.windowBuyers now).length
  let repeatBuyers := t.buffer.getRepeatBuyers CONFIG.windowBuyers now
  let sizeStats := t.buffer.getBuySizeStats CONFIG.windowLong now
  { txCount30s := txCount30s
    txCount60s := txCount60s
    txCount180s := txCount180s
    txCountPrev60s := txCountPrev60s
    buyers5m := buyers5m
    repeatBuyers := repeatBuyers
    avgBuySize := sizeStats.avg
    buySizeStdSq := sizeStats.stdSq
    largestBuy := sizeStats.max
    txIntervalMean := t.buffer.getTxIntervalMean CONFIG.windowMedium now
    txIntervalDelta := t.buffer.getTxIntervalDelta now
    txAcceleration := (txCount60s : Int) - (txCountPrev60s : Int) }

end TokenTracker

/-! ## String rendering helpers for reason messages -/

/-- Zero-pad a fractional part to 3 digits. -/
def natPad3 (n : Nat) : String :=
  if n < 10 then "00" ++ toString n else if n < 100 then "0" ++ toString n else toString n

/-- JavaScript `x.toFixed(3)`: a decimal rendering with 3 fractional digits,
rounding half away from zero (the tie behaviour of binary doubles is
immaterial: no theorem depends on the rendered digits). -/
def toFixed3 (q : Rat) : String :=
  let sign := if q < 0 then "-" else ""
  let scaled := (|q| * 1000 + 1/2).floor.toNat
  sign ++ toString (scaled / 1000) ++ "." ++ natPad3 (scaled % 1000)

/-- A 3-digit rendering of the square root of `sq`, used for the whale-noise
message whose source formats the (un-squared) standard deviation. -/
def sqrtToFixed3 (sq : Rat) : String :=
  let r := Nat.sqrt (sq * 1000000).floor.toNat
  toString (r / 1000) ++ "." ++ natPad3 (r % 1000)

/-- JavaScript `Array.prototype.join(sep)`. -/
def joinSep (sep : String) : List String → String
  | [] => ""
  | [a] => a
  | a :: b :: rest => a ++ sep ++ joinSep sep (b :: rest)

/-! ## Hard filters (`src/core/filters.ts`) -/

/-- Result of `evaluateFilters` (`FilterResult`; the `details` field of the
source, a verbatim copy of five of the inputs, is omitted). -/
structure FilterResult where
  passed : Bool
  reason : Option String
deriving DecidableEq

/-- Reason message for `largest_buy > maxLargestBuy`. -/
def msgLargestBuy (m : RollingMetrics) : String :=
  "largest_buy (" ++ toFixed3 m.largestBuy ++ " SOL) > 2 SOL"

/-- Reason message for `avg_buy_size > maxAvgBuySize`. -/
def msgAvgHigh (m : RollingMetrics) : String :=
  "avg_buy_size (" ++ toFixed3 m.avgBuySize ++ " SOL) > 0.8 SOL"

/-- Reason message for `0 < avg_buy_size < minAvgBuySize`. -/
def msgAvgLow (m : RollingMetrics) : String :=
  "avg_buy_size (" ++ toFixed3 m.avgBuySize ++ " SOL) < 0.03 SOL"

/-- Reason message for the whale-noise standard-deviation check. -/
def msgStd (m : RollingMetrics) : String :=
  "buy_size_std (" ++ sqrtToFixed3 m.buySizeStdSq ++ ") indicates whale noise"

/-- Reason message for the developer repeat-buy check. -/
def msgDev (t : TokenTracker) : String :=
  "dev wallet bought " ++ toString t.devBuyCount ++ " times (max: 1)"

/-- Reason message for the metadata-edit check. -/
def msgMeta (t : TokenTracker) : String :=
  "metadata edited " ++ toString t.metadataEditCount ++ " times (max: 1)"

/-- The `const stdThreshold = 0.5` of `evaluateFilters`, squared (the source
compares `std > 0.5`; we compare the variance to `0.5 ^ 2 = 1/4`). -/
def stdThresholdSq : Rat := 1/4

/-- The reason list built by `evaluateFilters`, one push per failing check in
source order. -/
def filterReasons (t : TokenTracker) (m : RollingMetrics) : List String :=
  (if m.largestBuy > CONFIG.maxLargestBuy then [msgLargestBuy m] else []) ++
  (if m.avgBuySize > CONFIG.maxAvgBuySize then [msgAvgHigh m] else []) ++
  (if m.avgBuySize > 0 ∧ m.avgBuySize < CONFIG.minAvgBuySize then [msgAvgLow m] else []) ++
  (if m.buySizeStdSq > stdThresholdSq then [msgStd m] else []) ++
  (if t.devBuyCount > CONFIG.maxDevBuys then [msgDev t] else []) ++
  (if t.metadataEditCount > CONFIG.maxMetadataEdits then [msgMeta t] else [])

/-- `evaluateFilters`: evaluate the six hard-filter checks; failures produce a
joined human-readable reason. -/
def evaluateFilters (t : TokenTracker) (m : RollingMetrics) : FilterResult :=
  let reasons := filterReasons t m
  let passed := reasons.isEmpty
  { passed := passed
    reason := if passed then none else some (joinSep "; " reasons) }

/-- Result of `quickFilterTransaction`. -/
structure QuickFilterResult where
  pass : Bool
  reason : Option String
deriving DecidableEq

/-- `quickFilterTransaction`: immediate rejection of any single transaction
whose amount exceeds the largest-buy ceiling. -/
def quickFilterTransaction (solAmount : Rat) : QuickFilterResult :=
  if solAmount > CONFIG.maxLargestBuy then
    { pass := false
      reason := some ("single_buy_too_large: " ++ toFixed3 solAmount ++ " SOL") }
  else { pass := true, reason := none }

/-! ## Signal conditions (`src/core/signals.ts`) -/

/-- Signal evaluation result (`SignalEvaluation`; the `easDetails`,
`lsfDetails` and `mcDetails` fields, verbatim copies of metric fields, are
omitted). -/
structure SignalEvaluation where
  easPassed : Bool
  lsfPassed : Bool
  mcPassed : Bool
  allPassed : Bool
deriving DecidableEq

/-- `evaluateSignals`: the EAS, LSF and MC conditions; `buy_size_std < 0.3`
becomes variance `< 0.3 ^ 2 = 9/100`, and the comparison of `Infinity`-able
`txIntervalMean` with the ceiling is false at `none`. -/
def evaluateSignals (m : RollingMetrics) : SignalEvaluation :=
  let easBuyers := decide (m.buyers5m ≥ CONFIG.signalsMinBuyers5m)
  let easInterval : Bool :=
    match m.txIntervalMean with
    | none => false
    | some v => decide (v < CONFIG.signalsMaxTxIntervalMean)
  let easAcceleration := decide (m.txAcceleration > 0)
  let easPassed := easBuyers && easInterval && easAcceleration
  let lsfAvgMin := decide (m.avgBuySize ≥ CONFIG.signalsMinAvgBuySize)
  let lsfAvgMax := decide (m.avgBuySize ≤ CONFIG.signalsMaxAvgBuySize)
  let lsfStd := decide (m.buySizeStdSq < 9/100)
  let lsfLargest := decide (m.largestBuy ≤ CONFIG.signalsMaxLargestBuy)
  let lsfPassed := lsfAvgMin && lsfAvgMax && lsfStd && lsfLargest
  let mcTxCount := decide (m.txCount60s ≥ CONFIG.signalsMinTxCount60s)
  let mcPassed := mcTxCount && m.txIntervalDelta
  { easPassed := easPassed
    lsfPassed := lsfPassed
    mcPassed := mcPassed
    allPassed := easPassed && lsfPassed && mcPassed }

/-! ## Scoring (`src/core/scoring.ts`) -/

/-- Score result (`TokenScore`), with the breakdown fields inlined. -/
structure TokenScore where
  tokenAddress : String
  score : Rat
  timestamp : Int
  buyersComponent : Rat
  accelerationComponent : Rat
  repeatBuyersComponent : Rat
  largestBuyPenalty : Rat
  stagnationPenalty : Rat
deriving DecidableEq

/-- `calculateScore`: the deterministic weighted-sum score, floored at 0. -/
def calculateScore (tokenAddress : String) (m : RollingMetrics) (now : Int) : TokenScore :=
  let buyersComponent := (m.buyers5m : Rat) * CONFIG.buyersWeight
  let accelerationComponent := (m.txAcceleration : Rat) * CONFIG.accelerationWeight
  let repeatBuyersComponent := (m.repeatBuyers : Rat) * CONFIG.repeatBuyersWeight
  let largestBuyPenalty := if m.largestBuy > 1 then CONFIG.largestBuyPenalty else 0
  let stagnationPenalty := if m.txCount60s = 0 then CONFIG.stagnationPenalty else 0
  let score :=
    buyersComponent + accelerationComponent + repeatBuyersComponent -
      largestBuyPenalty - stagnationPenalty
  { tokenAddress := tokenAddress
    score := max 0 score
    timestamp := now
    buyersComponent := buyersComponent
    accelerationComponent := accelerationComponent
    repeatBuyersComponent := repeatBuyersComponent
    largestBuyPenalty := largestBuyPenalty
    stagnationPenalty := stagnationPenalty }

/-! ## Paper positions (`src/trading/position.ts`, `src/types.ts`) -/

/-- Position status: `opened` is the source's `'open'`, `partialed` its
`'partial'`, `closed` its `'closed'`. -/
inductive PosStatus where
  | opened
  | partialed
  | closed
deriving DecidableEq

/-- Exit reasons (`ExitReason`), camel-cased from the source's snake-case
string union: `profitTargetPartialFill` is `'profit_target_partial'`,
`noActivity60s` is `'no_activity_60s'`, `killSwitchWhale` is
`'kill_switch_whale'`, and so on. -/
inductive ExitReason where
  | profitTargetPartialFill
  | profitTargetFull
  | noActivity60s
  | txDecreaseTwice
  | stagnationAfterSpike
  | killSwitchNoTx
  | killSwitchWhale
  | killSwitchDev
deriving DecidableEq

/-- A paper position (`PaperPosition`). -/
structure PaperPosition where
  id : String
  tokenAddress : String
  entryTimestamp : Int
  entryPrice : Rat
  entryScore : Rat
  positionSizeSOL : Rat
  remainingSizeSOL : Rat
  status : PosStatus
  partialExitTimestamp : Option Int
  partialExitPrice : Option Rat
  exitTimestamp : Option Int
  exitPrice : Option Rat
  exitReason : Option ExitReason
  maxUnrealizedPnL : Rat
  realizedPnL : Rat
deriving DecidableEq

/-- The position manager's state (`PositionManager`): the live positions keyed
by id, the closed-position archive, and the token-to-position index. -/
structure PositionManager where
  positions : List (String × PaperPosition)
  closedPositions : List PaperPosition
  tokenToPosition : List (String × String)
deriving DecidableEq

namespace PositionManager

/-- The empty manager. -/
def empty : PositionManager :=
  { positions := [], closedPositions := [], tokenToPosition := [] }

/-- The freshly constructed position of `openPosition`. -/
def mkPosition (tokenAddress : String) (entryPrice entryScore : Rat)
    (newId : String) (now : Int) : PaperPosition :=
  { id := newId
    tokenAddress := tokenAddress
    entryTimestamp := now
    entryPrice := entryPrice
    entryScore := entryScore
    positionSizeSOL := CONFIG.positionSizeSOL
    remainingSizeSOL := CONFIG.positionSizeSOL
    status := PosStatus.opened
    partialExitTimestamp := none
    partialExitPrice := none
    exitTimestamp := none
    exitPrice := none
    exitReason := none
    maxUnrealizedPnL := 0
    realizedPnL := 0 }

/-- `openPosition`: returns the existing position unchanged when the token
already has a non-closed one; otherwise creates a fresh position under
`newId` (the model of the random `generatePositionId()`). -/
def openPosition (pm : PositionManager) (tokenAddress : String)
    (entryPrice entryScore : Rat) (newId : String) (now : Int) :
    PaperPosition × PositionManager :=
  let create :=
    let position := mkPosition tokenAddress entryPrice entryScore newId now
    (position,
      { pm with
        positions := aset position.id position pm.positions
        tokenToPosition := aset tokenAddress position.id pm.tokenToPosition })
  match alookup tokenAddress pm.tokenToPosition with
  | some existingId =>
    match alookup existingId pm.positions with
    | some existing =>
      if existing.status ≠ PosStatus.closed then (existing, pm) else create
    | none => create
  | none => create

/-- `executePartialExit`: liquidate `partialExitPercent` of the nominal size
at `currentPrice`, realize its PnL, and move to `partialed`; a no-op for a
missing or closed position. -/
def executePartialExit (pm : PositionManager) (positionId : String)
    (currentPrice : Rat) (now : Int) : PositionManager :=
  match alookup positionId pm.positions with
  | none => pm
  | some p =>
    if p.status = PosStatus.closed then pm
    else
      let exitAmount := p.positionSizeSOL * (CONFIG.partialExitPercent / 100)
      let priceChange := (currentPrice - p.entryPrice) / p.entryPrice
      let pnl := exitAmount * priceChange
      let p2 :=
        { p with
          remainingSizeSOL := p.remainingSizeSOL - exitAmount
          partialExitTimestamp := some now
          partialExitPrice := some currentPrice
          realizedPnL := p.realizedPnL + pnl
          status := PosStatus.partialed }
      { pm with positions := aset positionId p2 pm.positions }

/-- `closePosition`: realize the PnL of the remaining size, mark closed, move
the position to the archive, and release the token mapping; a no-op for a
missing or closed position. -/
def closePosition (pm : PositionManager) (positionId : String)
    (currentPrice : Rat) (reason : ExitReason) (now : Int) : PositionManager :=
  match alookup positionId pm.positions with
  | none => pm
  | some p =>
    if p.status = PosStatus.closed then pm
    else
      let priceChange := (currentPrice - p.entryPrice) / p.entryPrice
      let pnl := p.remainingSizeSOL * priceChange
      let p2 :=
        { p with
          remainingSizeSOL := 0
          exitTimestamp := some now
          exitPrice := some currentPrice
          exitReason := some reason
          realizedPnL := p.realizedPnL + pnl
          status := PosStatus.closed }
      { pm with
        positions := aerase positionId pm.positions
        closedPositions := pm.closedPositions ++ [p2]
        tokenToPosition := aerase p.tokenAddress pm.tokenToPosition }

/-- `updateUnrealizedPnL`: raise the running maximum unrealized-PnL
percentage when exceeded. -/
def updateUnrealizedPnL (pm : PositionManager) (positionId : String)
    (currentPrice : Rat) : PositionManager :=
  match alookup positionId pm.positions with
  | none => pm
  | some p =>
    if p.status = PosStatus.closed then pm
    else
      let priceChange := (currentPrice - p.entryPrice) / p.entryPrice
      let unrealizedPct := priceChange * 100
      if unrealizedPct > p.maxUnrealizedPnL then
        { pm with
          positions := aset positionId { p with maxUnrealizedPnL := unrealizedPct } pm.positions }
      else pm

/-- `getPositionByToken`. -/
def getPositionByToken (pm : PositionManager) (tokenAddress : String) :
    Option PaperPosition :=
  match alookup tokenAddress pm.tokenToPosition with
  | none => none
  | some positionId => alookup positionId pm.positions

/-- `hasOpenPosition`. -/
def hasOpenPosition (pm : PositionManager) (tokenAddress : String) : Bool :=
  match getPositionByToken pm tokenAddress with
  | some p => decide (p.status ≠ PosStatus.closed)
  | none => false

/-- `getOpenPositions`: the live positions that are not closed. -/
def getOpenPositions (pm : PositionManager) : List PaperPosition :=
  (pm.positions.map Prod.snd).filter (fun p => decide (p.status ≠ PosStatus.closed))

end PositionManager

/-! ## Exit engine (`src/trading/exitEngine.ts`) -/

/-- Per-position exit-tracking state (`ExitState`). -/
structure ExitState where
  positionId : String
  consecutiveTxDecreases : Nat
  lastTxCount60s : Nat
  spikeDetected : Bool
  postSpikeTxCount : Option Nat
deriving DecidableEq

/-- The evaluation of exit conditions returned by `evaluateExit`. -/
structure ExitEvaluation where
  shouldPartialExit : Bool
  shouldFullExit : Bool
  reason : Option ExitReason
deriving DecidableEq

/-- Result of `ExitEngine.evaluateExit` together with the mutated exit-state
map and position manager. -/
structure EvaluateExitResult where
  eval : ExitEvaluation
  exitStates : List (String × ExitState)
  pm : PositionManager
deriving DecidableEq

/-- `ExitEngine.initPosition`. -/
def initExitState (positionId : String) (initialTxCount : Nat) : ExitState :=
  { positionId := positionId
    consecutiveTxDecreases := 0
    lastTxCount60s := initialTxCount
    spikeDetected := false
    postSpikeTxCount := none }

/-- `ExitEngine.evaluateExit`: with no tracked state, initialize it and report
no exit; otherwise compute the PnL percentage, update the running maximum
unrealized PnL, and evaluate the partial-exit threshold and the four full-exit
triggers in source order (a later trigger overwrites the recorded reason).
The source guard `state.spikeDetected && state.postSpikeTxCount` is JavaScript
truthiness, hence the `v ≠ 0` condition. -/
def evaluateExit (es : List (String × ExitState)) (pm : PositionManager)
    (position : PaperPosition) (currentPrice : Rat) (m : RollingMetrics)
    (tracker : TokenTracker) (now : Int) : EvaluateExitResult :=
  match alookup position.id es with
  | none =>
    { eval := { shouldPartialExit := false, shouldFullExit := false, reason := none }
      exitStates := aset position.id (initExitState position.id m.txCount60s) es
      pm := pm }
  | some st =>
    let pnlPercent := (currentPrice - position.entryPrice) / position.entryPrice * 100
    let pm2 := pm.updateUnrealizedPnL position.id currentPrice
    let shouldPartialExit :=
      position.status = PosStatus.opened ∧ pnlPercent ≥ CONFIG.partialProfitPercent
    let full1 := decide (pnlPercent ≥ CONFIG.fullProfitPercent)
    let reason1 : Option ExitReason :=
      if full1 then some ExitReason.profitTargetFull else none
    let timeSinceLastTx := now - tracker.lastTxTimestamp
    let full2 := decide (timeSinceLastTx ≥ CONFIG.noActivitySeconds * 1000)
    let reason2 := if full2 then some ExitReason.noActivity60s else reason1
    let consec :=
      if m.txCount60s < st.lastTxCount60s then st.consecutiveTxDecreases + 1
      else if m.txCount60s > st.lastTxCount60s then 0
      else st.consecutiveTxDecreases
    let full3 :=
      decide (m.txCount60s < st.lastTxCount60s ∧ consec ≥ CONFIG.txDecreaseThreshold)
    let reason3 := if full3 then some ExitReason.txDecreaseTwice else reason2
    let spike :=
      if m.txCount60s > st.lastTxCount60s ∧
          (m.txCount60s : Rat) > (st.lastTxCount60s : Rat) * (15/10) then true
      else st.spikeDetected
    let postSpike :=
      if m.txCount60s > st.lastTxCount60s ∧
          (m.txCount60s : Rat) > (st.lastTxCount60s : Rat) * (15/10) then some m.txCount60s
      else st.postSpikeTxCount
    let full4 : Bool :=
      spike &&
        match postSpike with
        | some v => decide (v ≠ 0) && decide ((m.txCount60s : Rat) < (v : Rat) * (5/10))
        | none => false
    let reason4 := if full4 then some ExitReason.stagnationAfterSpike else reason3
    let st2 :=
      { st with
        consecutiveTxDecreases := consec
        spikeDetected := spike
        postSpikeTxCount := postSpike
        lastTxCount60s := m.txCount60s }
    { eval :=
        { shouldPartialExit := decide shouldPartialExit
          shouldFullExit := full1 || full2 || full3 || full4
          reason := reason4 }
      exitStates := aset position.id st2 es
      pm := pm2 }

/-- `ExitEngine.executeExit`: partial exit first when flagged on a
still-`open` position, then the full exit on what remains; the full exit also
discards the auxiliary exit state (`cleanup`). The source condition
`evaluation.shouldFullExit && evaluation.reason` is truthiness on the reason
string, modelled by matching on the optional reason. -/
def executeExit (pm : PositionManager) (es : List (String × ExitState))
    (position : PaperPosition) (currentPrice : Rat) (evaluation : ExitEvaluation)
    (now : Int) : PositionManager × List (String × ExitState) :=
  if evaluation.shouldPartialExit = true ∧ position.status = PosStatus.opened then
    let pm1 := pm.executePartialExit position.id currentPrice now
    match alookup position.id pm1.positions with
    | none => (pm1, es)
    | some _ =>
      match evaluation.shouldFullExit, evaluation.reason with
      | true, some r =>
        (pm1.closePosition position.id currentPrice r now, aerase position.id es)
      | _, _ => (pm1, es)
  else
    match evaluation.shouldFullExit, evaluation.reason with
    | true, some r =>
      (pm.closePosition position.id currentPrice r now, aerase position.id es)
    | _, _ => (pm, es)

/-! ## Kill switch (`src/trading/killSwitch.ts`) -/

/-- Per-position kill-switch state (`KillState`). -/
structure KillState where
  positionId : String
  lastActivityTimestamp : Int
deriving DecidableEq

/-- Result of `KillSwitch.check` together with the mutated kill-state map and
position manager. -/
structure KillCheckResult where
  triggered : Bool
  killStates : List (String × KillState)
  pm : PositionManager
deriving DecidableEq

/-- `KillSwitch.check`: with no tracked state, initialize it and report no
trigger; otherwise close the position immediately on 60 seconds without a
transaction, on an incoming buy above the whale ceiling, or on renewed
developer-wallet activity; a trigger also discards the kill state
(`cleanup`). -/
def killCheck (ks : List (String × KillState)) (pm : PositionManager)
    (position : PaperPosition) (tracker : TokenTracker) (currentPrice : Rat)
    (latestTx : Option Transaction) (now : Int) : KillCheckResult :=
  match alookup position.id ks with
  | none =>
    { triggered := false
      killStates := aset position.id { positionId := position.id, lastActivityTimestamp := now } ks
      pm := pm }
  | some st =>
    if now - tracker.lastTxTimestamp ≥ CONFIG.killNoTxSeconds * 1000 then
      { triggered := true
        killStates := aerase position.id ks
        pm := pm.closePosition position.id currentPrice ExitReason.killSwitchNoTx now }
    else
      match latestTx with
      | none => { triggered := false, killStates := ks, pm := pm }
      | some tx =>
        let ks2 := aset position.id { st with lastActivityTimestamp := tx.timestamp } ks
        if tx.solAmount > CONFIG.whaleBuyThreshold then
          { triggered := true
            killStates := aerase position.id ks2
            pm := pm.closePosition position.id currentPrice ExitReason.killSwitchWhale now }
        else if tracker.devWallet = some tx.buyerWallet ∧ tracker.devBuyCount > 1 then
          { triggered := true
            killStates := aerase position.id ks2
            pm := pm.closePosition position.id currentPrice ExitReason.killSwitchDev now }
        else { triggered := false, killStates := ks2, pm := pm }

/-! ## Entry engine (`src/trading/entryEngine.ts`) -/

/-- Entry rejections (`evaluateEntry` returns `{ eligible: false, reason }`
with a formatted string; only the branch identity is consumed downstream — the
comparison against `'position_already_exists'` — so the reasons are modelled
as an inductive type). -/
inductive EntryRejection where
  | positionAlreadyExists
  | tokenDropped
  | scoreTooLow
  | tooYoung
  | tooOld
  | signalsFailed
  | mcOutOfRange
deriving DecidableEq

/-- A missed-runner record (`MissedRunner`). -/
structure MissedRunner where
  tokenAddress : String
  timestamp : Int
  score : Rat
  reason : EntryRejection
deriving DecidableEq

/-- `estimateMarketCap`: buyers x average buy size x 30. -/
def estimateMarketCap (m : RollingMetrics) : Rat :=
  (m.buyers5m : Rat) * m.avgBuySize * 30

/-- `calculateEntryPrice`: the average buy size as the price proxy. -/
def calculateEntryPrice (m : RollingMetrics) : Rat :=
  m.avgBuySize

/-- `evaluateEntry`: the entry-eligibility checks in source order; `none`
means eligible. -/
def evaluateEntry (pm : PositionManager) (tracker : TokenTracker)
    (score : TokenScore) (sev : SignalEvaluation) (m : RollingMetrics)
    (now : Int) : Option EntryRejection :=
  if pm.hasOpenPosition tracker.tokenAddress then some EntryRejection.positionAlreadyExists
  else if tracker.dropped then some EntryRejection.tokenDropped
  else if score.score < CONFIG.entryMinScore then some EntryRejection.scoreTooLow
  else if tracker.getAgeMinutes now < CONFIG.entryMinTokenAgeMinutes then
    some EntryRejection.tooYoung
  else if tracker.getAgeMinutes now > CONFIG.entryMaxTokenAgeMinutes then
    some EntryRejection.tooOld
  else if sev.allPassed = false then some EntryRejection.signalsFailed
  else if estimateMarketCap m < CONFIG.entryMinMarketCapSOL ∨
      estimateMarketCap m > CONFIG.entryMaxMarketCapSOL then
    some EntryRejection.mcOutOfRange
  else none

/-- `trackMissedRunner`: push and keep only the last 1000 records. -/
def trackMissedRunner (mr : List MissedRunner) (tokenAddress : String)
    (now : Int) (score : Rat) (reason : EntryRejection) : List MissedRunner :=
  let mr2 := mr ++ [{ tokenAddress := tokenAddress, timestamp := now, score := score, reason := reason }]
  if mr2.length > 1000 then mr2.drop (mr2.length - 1000) else mr2

/-- Result of `EntryEngine.tryEntry` together with the mutated trading
state. -/
structure TryEntryResult where
  entered : Bool
  pm : PositionManager
  exitStates : List (String × ExitState)
  killStates : List (String × KillState)
  missedRunners : List MissedRunner
deriving DecidableEq

/-- `EntryEngine.tryEntry`: open a paper position when eligible (recording a
missed runner otherwise, for scores at the threshold), and initialize the
exit-tracking and kill-switch state for the new position id. -/
def tryEntry (pm : PositionManager) (es : List (String × ExitState))
    (ks : List (String × KillState)) (mr : List MissedRunner)
    (tracker : TokenTracker) (score : TokenScore) (sev : SignalEvaluation)
    (m : RollingMetrics) (now : Int) (newId : String) : TryEntryResult :=
  match evaluateEntry pm tracker score sev m now with
  | some reason =>
    let mr2 :=
      if score.score ≥ CONFIG.entryMinScore ∧ reason ≠ EntryRejection.positionAlreadyExists then
        trackMissedRunner mr tracker.tokenAddress now score.score reason
      else mr
    { entered := false, pm := pm, exitStates := es, killStates := ks, missedRunners := mr2 }
  | none =>
    let entryPrice := calculateEntryPrice m
    let (position, pm2) := pm.openPosition tracker.tokenAddress entryPrice score.score newId now
    let es2 := aset position.id (initExitState position.id m.txCount60s) es
    let ks2 := aset position.id { positionId := position.id, lastActivityTimestamp := now } ks
    { entered := true, pm := pm2, exitStates := es2, killStates := ks2, missedRunners := mr }

/-! ## Signal engine orchestration (`src/core/signalEngine.ts`) -/

/-- The orchestrator's mutable state (`SignalEngine` together with its owned
`TokenRegistry`, `PositionManager`, `ExitEngine` and `KillSwitch` maps). -/
structure Engine where
  trackers : List (String × TokenTracker)
  pm : PositionManager
  exitStates : List (String × ExitState)
  killStates : List (String × KillState)
  missedRunners : List MissedRunner
  processedTxCount : Nat
deriving DecidableEq

namespace Engine

/-- `SignalEngine.evaluateForEntry`: compute metrics, apply the hard filters —
dropping the token with the joined reason on failure — and otherwise evaluate
signals, score, and attempt an entry. -/
def evaluateForEntry (e : Engine) (tracker : TokenTracker) (now : Int)
    (newId : String) : Engine :=
  let m := tracker.calculateMetrics now
  let fr := evaluateFilters tracker m
  if fr.passed = false then
    let tracker2 := tracker.drop (fr.reason.getD "")
    { e with trackers := aset tracker2.tokenAddress tracker2 e.trackers }
  else
    let sev := evaluateSignals m
    let score := calculateScore tracker.tokenAddress m now
    let r := tryEntry e.pm e.exitStates e.killStates e.missedRunners tracker score sev m now newId
    { e with
      pm := r.pm
      exitStates := r.exitStates
      killStates := r.killStates
      missedRunners := r.missedRunners }

/-- `SignalEngine.monitorPosition`: compute metrics and price proxy, run the
kill switch first (stopping if it fired), then evaluate exit conditions and
execute them when flagged. -/
def monitorPosition (e : Engine) (position : PaperPosition)
    (tracker : TokenTracker) (latestTx : Transaction) (now : Int) : Engine :=
  let m := tracker.calculateMetrics now
  let currentPrice := m.avgBuySize
  let kc := killCheck e.killStates e.pm position tracker currentPrice (some latestTx) now
  if kc.triggered then { e with killStates := kc.killStates, pm := kc.pm }
  else
    let e2 := { e with killStates := kc.killStates, pm := kc.pm }
    let ev := evaluateExit e2.exitStates e2.pm position currentPrice m tracker now
    let e3 := { e2 with exitStates := ev.exitStates, pm := ev.pm }
    if ev.eval.shouldPartialExit || ev.eval.shouldFullExit then
      let (pm2, es2) := executeExit e3.pm e3.exitStates position currentPrice ev.eval now
      { e3 with pm := pm2, exitStates := es2 }
    else e3

/-- `SignalEngine.processTransaction`: count the event, quick-filter it,
record it in the token registry, and either monitor the token's live position
or evaluate the token for entry. -/
def processTransaction (e : Engine) (tx : Transaction) (now : Int)
    (newId : String) : Engine :=
  let e1 := { e with processedTxCount := e.processedTxCount + 1 }
  if (quickFilterTransaction tx.solAmount).pass = false then e1
  else
    let tracker :=
      match alookup tx.tokenAddress e1.trackers with
      | none => TokenTracker.create tx.tokenAddress tx now
      | some t => t.addTransaction tx now
    let e2 := { e1 with trackers := aset tx.tokenAddress tracker e1.trackers }
    if tracker.dropped then e2
    else
      match e2.pm.getPositionByToken tx.tokenAddress with
      | some existingPosition =>
        if existingPosition.status ≠ PosStatus.closed then
          monitorPosition e2 existingPosition tracker tx now
        else evaluateForEntry e2 tracker now newId
      | none => evaluateForEntry e2 tracker now newId

/-- The body of the `checkStalePositions` loop for one open position: find its
tracker, run the kill switch (without a latest transaction), and execute the
exit only when a full exit with a reason was flagged. -/
def staleStep (e : Engine) (position : PaperPosition) (now : Int) : Engine :=
  match alookup position.tokenAddress e.trackers with
  | none => e
  | some tracker =>
    let m := tracker.calculateMetrics now
    let currentPrice := m.avgBuySize
    let kc := killCheck e.killStates e.pm position tracker currentPrice none now
    if kc.triggered then { e with killStates := kc.killStates, pm := kc.pm }
    else
      let e2 := { e with killStates := kc.killStates, pm := kc.pm }
      let ev := evaluateExit e2.exitStates e2.pm position currentPrice m tracker now
      let e3 := { e2 with exitStates := ev.exitStates, pm := ev.pm }
      match ev.eval.shouldFullExit, ev.eval.reason with
      | true, some _ =>
        let (pm2, es2) := executeExit e3.pm e3.exitStates position currentPrice ev.eval now
        { e3 with pm := pm2, exitStates := es2 }
      | _, _ => e3

/-- `SignalEngine.checkStalePositions`: the periodic-tick sweep over a
snapshot of the open positions. -/
def checkStalePositions (e : Engine) (now : Int) : Engine :=
  (e.pm.getOpenPositions).foldl (fun acc p => staleStep acc p now) e

end Engine

/-! ## Specification-side definitions used by the theorems -/

/-- The manager-level operations of the position lifecycle, for stating the
state-machine invariant over arbitrary call sequences. `execExit` applies
`executeExit` to the live position currently stored under the id (the
JavaScript callers pass the map's own object); the exit-state bookkeeping of
`executeExit` does not touch the manager, so an empty exit-state map is
passed. -/
inductive Op where
  | openPos (tokenAddress : String) (entryPrice entryScore : Rat) (newId : String) (now : Int)
  | partialExit (positionId : String) (currentPrice : Rat) (now : Int)
  | closePos (positionId : String) (currentPrice : Rat) (reason : ExitReason) (now : Int)
  | updatePnL (positionId : String) (currentPrice : Rat)
  | execExit (positionId : String) (currentPrice : Rat) (evaluation : ExitEvaluation) (now : Int)

/-- Apply one operation to the manager. -/
def applyOp (pm : PositionManager) : Op → PositionManager
  | Op.openPos tok ep sc nid now => (pm.openPosition tok ep sc nid now).2
  | Op.partialExit pid cp now => pm.executePartialExit pid cp now
  | Op.closePos pid cp r now => pm.closePosition pid cp r now
  | Op.updatePnL pid cp => pm.updateUnrealizedPnL pid cp
  | Op.execExit pid cp ev now =>
    match alookup pid pm.positions with
    | some p => (executeExit pm [] p cp ev now).1
    | none => pm

/-- Apply a sequence of operations. -/
def applyOps (pm : PositionManager) (ops : List Op) : PositionManager :=
  ops.foldl applyOp pm

/-- The rank of a position's lifecycle stage: absent, open, partial,
closed. -/
def statusRank : Option PosStatus → Nat
  | none => 0
  | some PosStatus.opened => 1
  | some PosStatus.partialed => 2
  | some PosStatus.closed => 3

/-- The lifecycle stage of the position with id `pid`: its live status while
in the manager's map, `closed` once archived, absent otherwise. -/
def statusOf (pm : PositionManager) (pid : String) : Option PosStatus :=
  match alookup pid pm.positions with
  | some p => some p.status
  | none =>
    if pm.closedPositions.any (fun q => decide (q.id = pid)) then some PosStatus.closed
    else none

/-- Every live position is stored under its own id (true of every manager the
source builds: `positions.set(position.id, position)`). -/
def KeysMatch (pm : PositionManager) : Prop :=
  ∀ k p, alookup k pm.positions = some p → p.id = k

/-- A generated position id is fresh (the source draws 6 random bytes for it):
for `openPos`, the id is neither live nor archived. -/
def OpFresh (pm : PositionManager) : Op → Prop
  | Op.openPos _ _ _ nid _ =>
    alookup nid pm.positions = none ∧ ∀ q ∈ pm.closedPositions, q.id ≠ nid
  | _ => True

/-- Freshness along a whole call sequence. -/
def OpsFresh : PositionManager → List Op → Prop
  | _, [] => True
  | pm, op :: rest => OpFresh pm op ∧ OpsFresh (applyOp pm op) rest

/-- The string `needle` occurs at the head of `s`. -/
def mentionsAtHead (needle s : String) : Prop :=
  ∃ rest, s.data = needle.data ++ rest

/-- The record update `executePartialExit` applies to the found position
(named for use in the theorems; `executePartialExit` itself is the
authority). -/
def partialUpdate (p : PaperPosition) (currentPrice : Rat) (now : Int) : PaperPosition :=
  { p with
    remainingSizeSOL :=
      p.remainingSizeSOL - p.positionSizeSOL * (CONFIG.partialExitPercent / 100)
    partialExitTimestamp := some now
    partialExitPrice := some currentPrice
    realizedPnL := p.realizedPnL +
      p.positionSizeSOL * (CONFIG.partialExitPercent / 100) *
        ((currentPrice - p.entryPrice) / p.entryPrice)
    status := PosStatus.partialed }

/-- The record update `closePosition` applies to the found position. -/
def closeUpdate (p : PaperPosition) (currentPrice : Rat) (r : ExitReason)
    (now : Int) : PaperPosition :=
  { p with
    remainingSizeSOL := 0
    exitTimestamp := some now
    exitPrice := some currentPrice
    exitReason := some r
    realizedPnL := p.realizedPnL +
      p.remainingSizeSOL * ((currentPrice - p.entryPrice) / p.entryPrice)
    status := PosStatus.closed }

/-- The number of failing hard-filter checks (specification side, mirroring
the six conditions of `evaluateFilters`). -/
def countFailing (t : TokenTracker) (m : RollingMetrics) : Nat :=
  (if m.largestBuy > CONFIG.maxLargestBuy then 1 else 0) +
  (if m.avgBuySize > CONFIG.maxAvgBuySize then 1 else 0) +
  (if m.avgBuySize > 0 ∧ m.avgBuySize < CONFIG.minAvgBuySize then 1 else 0) +
  (if m.buySizeStdSq > stdThresholdSq then 1 else 0) +
  (if t.devBuyCount > CONFIG.maxDevBuys then 1 else 0) +
  (if t.metadataEditCount > CONFIG.maxMetadataEdits then 1 else 0)

/-! ## Concrete data for witnesses and counterexamples -/

/-- A first buy on token `T` (the buyer `alice` becomes the developer
wallet). -/
def wTx1 : Transaction :=
  { tokenAddress := "T", timestamp := 990000, buyerWallet := "alice",
    solAmount := 1/4, txHash := "h1" }

/-- A second buy on token `T` from another wallet. -/
def wTx2 : Transaction :=
  { tokenAddress := "T", timestamp := 995000, buyerWallet := "bob",
    solAmount := 1/4, txHash := "h2" }

/-- A 3.5-SOL buy on token `T` from a wallet other than the developer
(`alice`). -/
def whaleTx : Transaction :=
  { tokenAddress := "T", timestamp := 996000, buyerWallet := "carol",
    solAmount := 7/2, txHash := "hw" }

/-- The tracker of token `T` after its two recorded buys. -/
def wTracker : TokenTracker :=
  (TokenTracker.create "T" wTx1 990000).addTransaction wTx2 995000

/-- A single 2.5-SOL buy on token `U`. -/
def w2Tx : Transaction :=
  { tokenAddress := "U", timestamp := 999000, buyerWallet := "dave",
    solAmount := 5/2, txHash := "h3" }

/-- The tracker of token `U` holding only the 2.5-SOL buy. -/
def w2Tracker : TokenTracker :=
  TokenTracker.create "U" w2Tx 999000

/-- An engine tracking token `U` with no position on it. -/
def w2Engine : Engine :=
  { trackers := [("U", w2Tracker)], pm := PositionManager.empty,
    exitStates := [], killStates := [], missedRunners := [],
    processedTxCount := 0 }

/-- An open paper position on token `T`, entered at price 0.1. -/
def wPos : PaperPosition :=
  { id := "pos1", tokenAddress := "T", entryTimestamp := 900000,
    entryPrice := 1/10, entryScore := 20, positionSizeSOL := 1,
    remainingSizeSOL := 1, status := PosStatus.opened,
    partialExitTimestamp := none, partialExitPrice := none,
    exitTimestamp := none, exitPrice := none, exitReason := none,
    maxUnrealizedPnL := 0, realizedPnL := 0 }

/-- A manager holding the single open position `pos1`. -/
def wPm : PositionManager :=
  { positions := [("pos1", wPos)], closedPositions := [],
    tokenToPosition := [("T", "pos1")] }

/-- Exit-tracking state of `pos1`: no decreases, last 60-second count 2, no
spike. -/
def wExitState : ExitState :=
  { positionId := "pos1", consecutiveTxDecreases := 0, lastTxCount60s := 2,
    spikeDetected := false, postSpikeTxCount := none }

/-- Kill-switch state of `pos1`. -/
def wKillState : KillState :=
  { positionId := "pos1", lastActivityTimestamp := 995000 }

/-- An engine with token `T` tracked and position `pos1` open on it; at
evaluation time 1000000 the price proxy is 0.25, a 150 percent gain over the
entry price 0.1. -/
def wEngine : Engine :=
  { trackers := [("T", wTracker)], pm := wPm,
    exitStates := [("pos1", wExitState)], killStates := [("pos1", wKillState)],
    missedRunners := [], processedTxCount := 0 }

/-! ## Lemmas about the association-list helpers -/

theorem alookup_aset_self {β : Type} (k : String) (v : β) (l : List (String × β)) :
    alookup k (aset k v l) = some v := by
  induction l with
  | nil => simp [aset, alookup]
  | cons hd tl ih =>
    obtain ⟨k2, v2⟩ := hd
    by_cases h : k2 = k
    · simp [aset, h, alookup]
    · simp [aset, h, alookup, ih]

theorem alookup_aset_other {β : Type} (k k2 : String) (v : β) (l : List (String × β))
    (h : k ≠ k2) : alookup k2 (aset k v l) = alookup k2 l := by
  induction l with
  | nil => simp [aset, alookup, h]
  | cons hd tl ih =>
    obtain ⟨k3, v3⟩ := hd
    by_cases h3 : k3 = k
    · subst h3
      simp [aset, alookup, h]
    · simp [aset, h3, alookup, ih]

theorem alookup_aset {β : Type} (k k2 : String) (v : β) (l : List (String × β)) :
    alookup k2 (aset k v l) = if k = k2 then some v else alookup k2 l := by
  by_cases h : k = k2
  · subst h
    simp [alookup_aset_self]
  · simp [alookup_aset_other k k2 v l h, h]

theorem alookup_aerase {β : Type} (k k2 : String) (l : List (String × β)) :
    alookup k2 (aerase k l) = if k = k2 then none else alookup k2 l := by
  induction l with
  | nil => simp [aerase, alookup]
  | cons hd tl ih =>
    obtain ⟨k3, v3⟩ := hd
    by_cases h3 : k3 = k
    · subst h3
      by_cases h2 : k3 = k2
      · subst h2
        simpa [aerase, alookup] using ih
      · simp [aerase, alookup, h2, ih]
    · by_cases h4 : k3 = k2
      · subst h4
        have hk2 : ¬ k = k3 := fun h => h3 h.symm
        simp [aerase, alookup, h3, hk2, ih]
      · simp [aerase, alookup, h3, h4, ih]

theorem alookup_aerase_self {β : Type} (k : String) (l : List (String × β)) :
    alookup k (aerase k l) = none := by
  simp [alookup_aerase]

theorem alookup_aerase_other {β : Type} (k k2 : String) (l : List (String × β))
    (h : k ≠ k2) : alookup k2 (aerase k l) = alookup k2 l := by
  simp [alookup_aerase, h]

/-! ## Claim C7 — the scoring formula and its clamp at zero -/

/-- C7: for all metric inputs, `calculateScore` returns exactly
`max(0, buyers5m * 2 + txAcceleration * 3 + repeatBuyers * 2
- (largestBuy > 1.0 ? 5 : 0) - (txCount60s == 0 ? 10 : 0))`; in particular
the returned score is never negative. -/
theorem calculateScore_clamped_weighted_sum (tokenAddress : String)
    (m : RollingMetrics) (now : Int) :
    (calculateScore tokenAddress m now).score =
      max 0 ((m.buyers5m : Rat) * 2 + (m.txAcceleration : Rat) * 3 +
        (m.repeatBuyers : Rat) * 2 - (if m.largestBuy > 1 then 5 else 0) -
        (if m.txCount60s = 0 then 10 else 0)) ∧
    0 ≤ (calculateScore tokenAddress m now).score := by
  constructor
  · simp [calculateScore, CONFIG.buyersWeight, CONFIG.accelerationWeight,
      CONFIG.repeatBuyersWeight, CONFIG.largestBuyPenalty, CONFIG.stagnationPenalty]
  · exact le_max_left 0 _

/-! ## Claim C8 — windowed counts are boundary-inclusive and never stale -/

/-- C8: for every window length `w` and evaluation time `now`, `countWindow`
counts exactly the stored entries with `timestamp >= now - w`; membership of
the window is equivalent to being stored and at most `w` old, an entry at
exactly `now - w` is included, and an entry older than `w` never is. -/
theorem countWindow_counts_boundary_inclusive (b : MultiWindowBuffer) (w now : Int) :
    MultiWindowBuffer.countWindow b w now =
      (b.transactions.filter (fun tx => decide (now - w ≤ tx.timestamp))).length ∧
    (∀ tx, tx ∈ MultiWindowBuffer.getWindow b w now ↔
      tx ∈ b.transactions ∧ now - w ≤ tx.timestamp) ∧
    (∀ tx, tx ∈ b.transactions → tx.timestamp = now - w →
      tx ∈ MultiWindowBuffer.getWindow b w now) ∧
    (∀ tx, tx.timestamp < now - w → tx ∉ MultiWindowBuffer.getWindow b w now) := by
  refine ⟨rfl, ?_, ?_, ?_⟩
  · intro tx
    simp [MultiWindowBuffer.getWindow, List.mem_filter]
  · intro tx hmem hts
    simp [MultiWindowBuffer.getWindow, List.mem_filter, hmem, hts]
  · intro tx hts hmem
    simp [MultiWindowBuffer.getWindow, List.mem_filter] at hmem
    omega

/-! ## Claim C6 — dropping a token is one-way and silences recording -/

/-- C6: `drop` is idempotent and one-way (the first recorded reason is kept),
and once a tracker is dropped, `addTransaction` leaves the transaction buffer,
the unique-buyer set, the developer-buy count, the last-activity timestamp,
the dropped flag and reason — hence also any metrics derived at a fixed
instant — entirely unchanged. -/
theorem tokenTracker_drop_one_way_add_ignored (t : TokenTracker) (r r2 : String)
    (tx : Transaction) (now now2 : Int) :
    (t.dropped = true → t.drop r = t ∧ t.addTransaction tx now = t) ∧
    (t.drop r).dropped = true ∧
    (t.drop r).dropReason = (if t.dropped then t.dropReason else some r) ∧
    (t.drop r).drop r2 = t.drop r ∧
    (t.drop r).addTransaction tx now = t.drop r ∧
    ((t.drop r).addTransaction tx now).calculateMetrics now2 =
      (t.drop r).calculateMetrics now2 := by
  by_cases h : t.dropped = true
  · refine ⟨fun _ => ⟨?_, ?_⟩, ?_, ?_, ?_, ?_, ?_⟩ <;>
      simp [TokenTracker.drop, TokenTracker.addTransaction, h]
  · refine ⟨fun hc => absurd hc h, ?_, ?_, ?_, ?_, ?_⟩ <;>
      simp [TokenTracker.drop, TokenTracker.addTransaction, h]

/-! ## Claim C10 — a first exit evaluation can never trigger an exit -/

/-- C10: when `evaluateExit` is called for a position id with no entry in the
exit-state map, it installs a fresh state (zero consecutive decreases,
`lastTxCount60s` set to the current 60-second count, no spike marker), leaves
the manager untouched, and reports neither a partial nor a full exit,
regardless of the current price, PnL or metrics. -/
theorem evaluateExit_first_call_no_exit (es : List (String × ExitState))
    (pm : PositionManager) (position : PaperPosition) (currentPrice : Rat)
    (m : RollingMetrics) (tracker : TokenTracker) (now : Int)
    (h : alookup position.id es = none) :
    evaluateExit es pm position currentPrice m tracker now =
      { eval := { shouldPartialExit := false, shouldFullExit := false, reason := none }
        exitStates := aset position.id (initExitState position.id m.txCount60s) es
        pm := pm } := by
  simp [evaluateExit, h]

/-! ## Claim C1 — a 3.5-SOL buy never reaches the whale kill switch -/

/-- C1 (what the code actually does): any incoming transaction whose amount
exceeds the 2-SOL largest-buy ceiling — in particular every transaction above
the 3-SOL whale ceiling — is rejected by `quickFilterTransaction` at the top
of `processTransaction`, before the registry, the kill switch or the exit
engine run: the engine state is unchanged except for the processed-event
counter, so an open position on the token is NOT closed with
`kill_switch_whale` (contradicting the claim and the kill switch's own
documentation, which this theorem shows to be unreachable from the event
pipeline). -/
theorem processTransaction_whale_prefiltered (e : Engine) (tx : Transaction)
    (now : Int) (newId : String) (h : tx.solAmount > CONFIG.maxLargestBuy) :
    e.processTransaction tx now newId =
      { e with processedTxCount := e.processedTxCount + 1 } := by
  simp [Engine.processTransaction, quickFilterTransaction, h]

/-- Witness for C1: the concrete engine `wEngine` holds an open position on
token `T` whose tracker's developer wallet is `alice`; the 3.5-SOL buy from
`carol` (not the developer) leaves the position manager — and hence the open
position — untouched. -/
theorem processTransaction_whale_prefiltered_witness :
    whaleTx.solAmount = 7/2 ∧
    whaleTx.solAmount > CONFIG.whaleBuyThreshold ∧
    wTracker.devWallet = some "alice" ∧
    whaleTx.buyerWallet = "carol" ∧
    (wEngine.pm.getPositionByToken whaleTx.tokenAddress).map PaperPosition.status =
      some PosStatus.opened ∧
    wEngine.processTransaction whaleTx 996000 "p2" =
      { wEngine with processedTxCount := wEngine.processedTxCount + 1 } ∧
    (wEngine.processTransaction whaleTx 996000 "p2").pm = wEngine.pm := by
  have happ := processTransaction_whale_prefiltered wEngine whaleTx 996000 "p2"
    (by norm_num [whaleTx, CONFIG.maxLargestBuy])
  refine ⟨rfl, by norm_num [whaleTx, CONFIG.whaleBuyThreshold], by decide, rfl, by decide,
    happ, by rw [happ]⟩

/-! ## Claim C2 — a 2.5-SOL buy in the history drops the token via the filters -/

theorem foldl_max_le_init (l : List Rat) (a : Rat) : a ≤ l.foldl max a := by
  induction l generalizing a with
  | nil => simp
  | cons hd tl ih => exact le_trans (le_max_left a hd) (ih (max a hd))

theorem mem_le_foldl_max (l : List Rat) (a x : Rat) : x ∈ l → x ≤ l.foldl max a := by
  induction l generalizing a with
  | nil => intro hx; cases hx
  | cons hd tl ih =>
    intro hx
    rw [List.foldl_cons]
    rcases List.mem_cons.mp hx with rfl | h2
    · exact le_trans (le_max_right a x) (foldl_max_le_init tl (max a x))
    · exact ih (max a hd) h2

/-- A stored transaction inside the window bounds the window's largest-buy
statistic from below. -/
theorem largestBuy_ge_of_mem (b : MultiWindowBuffer) (windowMs now : Int)
    (tx : Transaction) (hmem : tx ∈ b.transactions)
    (hts : tx.timestamp ≥ now - windowMs) :
    tx.solAmount ≤ (b.getBuySizeStats windowMs now).max := by
  have hwin : tx ∈ b.getWindow windowMs now := by
    simp only [MultiWindowBuffer.getWindow, List.mem_filter, decide_eq_true_eq]
    exact ⟨hmem, hts⟩
  cases hw : b.getWindow windowMs now with
  | nil => rw [hw] at hwin; cases hwin
  | cons t0 rest =>
    rw [hw] at hwin
    simp only [MultiWindowBuffer.getBuySizeStats, hw]
    exact mem_le_foldl_max _ _ _ (List.mem_map_of_mem Transaction.solAmount hwin)

/-- The joined reason of a reason list whose head is the largest-buy message
mentions `largest_buy` at its head. -/
theorem mentionsAtHead_joinSep_msgLargestBuy (m : RollingMetrics) (rest : List String) :
    mentionsAtHead "largest_buy" (joinSep "; " (msgLargestBuy m :: rest)) := by
  obtain ⟨r1, hr1⟩ :
      ∃ r1, (joinSep "; " (msgLargestBuy m :: rest)).data = (msgLargestBuy m).data ++ r1 := by
    cases rest with
    | nil => exact ⟨[], by simp [joinSep]⟩
    | cons b t =>
      exact ⟨"; ".data ++ (joinSep "; " (b :: t)).data, by simp [joinSep, String.data_append]⟩
  refine ⟨" (".data ++ ((toFixed3 m.largestBuy).data ++ (" SOL) > 2 SOL".data ++ r1)), ?_⟩
  rw [hr1]
  have h2 : "largest_buy (".data = "largest_buy".data ++ " (".data := by decide
  simp [msgLargestBuy, String.data_append, h2]

/-- C2: for a token without an open position (the `evaluateForEntry` branch of
the pipeline), if the recorded history holds a buy of 2.5 SOL inside the
180-second statistics window at evaluation time — so the largest-buy metric
exceeds the 2-SOL ceiling — the token is dropped by the filter stage with a
reason mentioning `largest_buy`, regardless of all other metrics. -/
theorem evaluateForEntry_drops_token_largest_buy (e : Engine) (tracker : TokenTracker)
    (now : Int) (newId : String) (tx : Transaction)
    (hdrop : tracker.dropped = false)
    (hmem : tx ∈ tracker.buffer.transactions)
    (hts : tx.timestamp ≥ now - CONFIG.windowLong)
    (hamt : tx.solAmount = 5/2) :
    ∃ t2,
      alookup tracker.tokenAddress (e.evaluateForEntry tracker now newId).trackers = some t2 ∧
      t2.dropped = true ∧
      ∃ s, t2.dropReason = some s ∧ mentionsAtHead "largest_buy" s := by
  have hlb : (5/2 : Rat) ≤ (tracker.calculateMetrics now).largestBuy := by
    have h := largestBuy_ge_of_mem tracker.buffer CONFIG.windowLong now tx hmem hts
    rw [hamt] at h
    simpa [TokenTracker.calculateMetrics] using h
  have hcond : (tracker.calculateMetrics now).largestBuy > CONFIG.maxLargestBuy :=
    lt_of_lt_of_le (by norm_num [CONFIG.maxLargestBuy]) hlb
  obtain ⟨rest, hrest⟩ :
      ∃ rest, filterReasons tracker (tracker.calculateMetrics now) =
        msgLargestBuy (tracker.calculateMetrics now) :: rest := by
    unfold filterReasons
    rw [if_pos hcond]
    exact ⟨_, rfl⟩
  have hpassed : (evaluateFilters tracker (tracker.calculateMetrics now)).passed = false := by
    simp [evaluateFilters, hrest]
  have hreason : (evaluateFilters tracker (tracker.calculateMetrics now)).reason =
      some (joinSep "; " (msgLargestBuy (tracker.calculateMetrics now) :: rest)) := by
    simp [evaluateFilters, hrest]
  refine ⟨tracker.drop (joinSep "; " (msgLargestBuy (tracker.calculateMetrics now) :: rest)),
    ?_, ?_, joinSep "; " (msgLargestBuy (tracker.calculateMetrics now) :: rest), ?_,
    mentionsAtHead_joinSep_msgLargestBuy _ _⟩
  · have haddr : (tracker.drop (joinSep "; "
        (msgLargestBuy (tracker.calculateMetrics now) :: rest))).tokenAddress =
        tracker.tokenAddress := by
      simp [TokenTracker.drop, hdrop]
    simp only [Engine.evaluateForEntry, hpassed, hreason, Option.getD_some,
      eq_self_iff_true, if_true]
    rw [haddr]
    exact alookup_aset_self _ _ _
  · simp [TokenTracker.drop, hdrop]
  · simp [TokenTracker.drop, hdrop]

/-- Witness for C2: the tracker of token `U` holds the single 2.5-SOL buy and
is dropped by the filter stage with a `largest_buy` reason. -/
theorem evaluateForEntry_drops_token_largest_buy_witness :
    w2Tracker.dropped = false ∧
    ∃ t2,
      alookup w2Tracker.tokenAddress
        (w2Engine.evaluateForEntry w2Tracker 999000 "p9").trackers = some t2 ∧
      t2.dropped = true ∧
      ∃ s, t2.dropReason = some s ∧ mentionsAtHead "largest_buy" s := by
  have htrans : w2Tracker.buffer.transactions = [w2Tx] := by
    norm_num [w2Tracker, w2Tx, TokenTracker.create, TokenTracker.addTransaction,
      MultiWindowBuffer.add, MultiWindowBuffer.evictOld, CONFIG.windowBuyers]
  have hdrop : w2Tracker.dropped = false := by decide
  refine ⟨hdrop, ?_⟩
  exact evaluateForEntry_drops_token_largest_buy w2Engine w2Tracker 999000 "p9" w2Tx
    hdrop (by rw [htrans]; exact List.mem_singleton.mpr rfl) (by decide) rfl

/-! ## Claim C9 — every failing filter condition is listed in the drop reason -/

theorem head_data_append (a b : String) (c : Char) (h : a.data.head? = some c) :
    (a ++ b).data.head? = some c := by
  rw [String.data_append]
  cases hd : a.data with
  | nil => rw [hd] at h; cases h
  | cons x xs =>
    rw [hd] at h
    simpa using h

theorem msgAvgLow_head (m : RollingMetrics) : (msgAvgLow m).data.head? = some 'a' := by
  unfold msgAvgLow
  apply head_data_append
  apply head_data_append
  decide

theorem msgLargestBuy_head (m : RollingMetrics) :
    (msgLargestBuy m).data.head? = some 'l' := by
  unfold msgLargestBuy
  apply head_data_append
  apply head_data_append
  decide

theorem msgStd_head (m : RollingMetrics) : (msgStd m).data.head? = some 'b' := by
  unfold msgStd
  apply head_data_append
  apply head_data_append
  decide

theorem msgDev_head (t : TokenTracker) : (msgDev t).data.head? = some 'd' := by
  unfold msgDev
  apply head_data_append
  apply head_data_append
  decide

theorem msgMeta_head (t : TokenTracker) : (msgMeta t).data.head? = some 'm' := by
  unfold msgMeta
  apply head_data_append
  apply head_data_append
  decide

theorem msgAvgLow_ne_msgLargestBuy (m : RollingMetrics) : msgAvgLow m ≠ msgLargestBuy m := by
  intro he
  have h2 : (msgAvgLow m).data.head? = (msgLargestBuy m).data.head? := by rw [he]
  rw [msgAvgLow_head, msgLargestBuy_head] at h2
  cases h2

theorem msgAvgLow_ne_msgStd (m : RollingMetrics) : msgAvgLow m ≠ msgStd m := by
  intro he
  have h2 : (msgAvgLow m).data.head? = (msgStd m).data.head? := by rw [he]
  rw [msgAvgLow_head, msgStd_head] at h2
  cases h2

theorem msgAvgLow_ne_msgDev (m : RollingMetrics) (t : TokenTracker) :
    msgAvgLow m ≠ msgDev t := by
  intro he
  have h2 : (msgAvgLow m).data.head? = (msgDev t).data.head? := by rw [he]
  rw [msgAvgLow_head, msgDev_head] at h2
  cases h2

theorem msgAvgLow_ne_msgMeta (m : RollingMetrics) (t : TokenTracker) :
    msgAvgLow m ≠ msgMeta t := by
  intro he
  have h2 : (msgAvgLow m).data.head? = (msgMeta t).data.head? := by rw [he]
  rw [msgAvgLow_head, msgMeta_head] at h2
  cases h2

/-- C9: whenever the filter stage fails, the reason handed to
`TokenLifecycle.drop` is the `; `-joined concatenation of the reason list,
which holds exactly one message per failing condition of the six checks —
every failing condition is listed, not only the first — and the below-floor
average-buy-size message appears only when the average buy size is positive. -/
theorem evaluateFilters_reason_lists_every_failure (t : TokenTracker) (m : RollingMetrics) :
    ((evaluateFilters t m).passed = false →
      (evaluateFilters t m).reason = some (joinSep "; " (filterReasons t m))) ∧
    (filterReasons t m).length = countFailing t m ∧
    (m.largestBuy > CONFIG.maxLargestBuy → msgLargestBuy m ∈ filterReasons t m) ∧
    (m.avgBuySize > CONFIG.maxAvgBuySize → msgAvgHigh m ∈ filterReasons t m) ∧
    (m.avgBuySize > 0 ∧ m.avgBuySize < CONFIG.minAvgBuySize →
      msgAvgLow m ∈ filterReasons t m) ∧
    (m.buySizeStdSq > stdThresholdSq → msgStd m ∈ filterReasons t m) ∧
    (t.devBuyCount > CONFIG.maxDevBuys → msgDev t ∈ filterReasons t m) ∧
    (t.metadataEditCount > CONFIG.maxMetadataEdits → msgMeta t ∈ filterReasons t m) ∧
    (msgAvgLow m ∈ filterReasons t m → 0 < m.avgBuySize) ∧
    (∀ (e : Engine) (now : Int) (newId : String),
      t.dropped = false →
      (evaluateFilters t (t.calculateMetrics now)).passed = false →
      ∃ t2, alookup t.tokenAddress (e.evaluateForEntry t now newId).trackers = some t2 ∧
        t2.dropReason = some (joinSep "; " (filterReasons t (t.calculateMetrics now)))) := by
  refine ⟨?_, ?_, ?_, ?_, ?_, ?_, ?_, ?_, ?_, ?_⟩
  · intro h
    simp only [evaluateFilters] at h ⊢
    rw [h]
    simp
  · simp only [filterReasons, countFailing]
    split_ifs <;> simp
  · intro h
    simp only [filterReasons]
    rw [if_pos h]
    simp [List.mem_append]
  · intro h
    simp only [filterReasons]
    rw [if_pos h]
    simp [List.mem_append]
  · intro h
    simp only [filterReasons]
    rw [if_pos h]
    simp [List.mem_append]
  · intro h
    simp only [filterReasons]
    rw [if_pos h]
    simp [List.mem_append]
  · intro h
    simp only [filterReasons]
    rw [if_pos h]
    simp [List.mem_append]
  · intro h
    simp only [filterReasons]
    rw [if_pos h]
    simp [List.mem_append]
  · by_cases hpos : 0 < m.avgBuySize
    · exact fun _ => hpos
    · intro hmem
      exfalso
      have h2 : ¬ (m.avgBuySize > CONFIG.maxAvgBuySize) := by
        intro hgt
        exact hpos (lt_trans (by norm_num [CONFIG.maxAvgBuySize]) hgt)
      have h3 : ¬ (m.avgBuySize > 0 ∧ m.avgBuySize < CONFIG.minAvgBuySize) :=
        fun hc => hpos hc.1
      simp only [filterReasons, if_neg h2, if_neg h3, List.nil_append,
        List.append_nil] at hmem
      split_ifs at hmem <;>
        simp only [List.mem_append, List.mem_singleton, List.not_mem_nil,
          msgAvgLow_ne_msgLargestBuy, msgAvgLow_ne_msgStd, msgAvgLow_ne_msgDev,
          msgAvgLow_ne_msgMeta, or_self, or_false, false_or] at hmem
  · intro e now newId hdrop hfail
    have hfail2 : (filterReasons t (t.calculateMetrics now)).isEmpty = false := by
      simpa only [evaluateFilters] using hfail
    have hreason : (evaluateFilters t (t.calculateMetrics now)).reason =
        some (joinSep "; " (filterReasons t (t.calculateMetrics now))) := by
      simp only [evaluateFilters]
      rw [hfail2]
      simp
    have haddr : (t.drop (joinSep "; " (filterReasons t (t.calculateMetrics now)))).tokenAddress =
        t.tokenAddress := by
      simp [TokenTracker.drop, hdrop]
    refine ⟨t.drop (joinSep "; " (filterReasons t (t.calculateMetrics now))), ?_, ?_⟩
    · simp only [Engine.evaluateForEntry, hfail, hreason, Option.getD_some,
        eq_self_iff_true, if_true]
      rw [haddr]
      exact alookup_aset_self _ _ _
    · simp [TokenTracker.drop, hdrop]

/-! ## Claim C4 — partial exit executes before the full exit, on the
pre-partial size -/

/-- C4: when a single evaluation of an `open` position flags both the partial
and a full exit, `executeExit` first performs the partial exit — liquidating
50 percent of the nominal, pre-partial size while the status is still open —
and then closes the remainder with the full-exit reason, ending closed with
remaining size 0. -/
theorem executeExit_partial_then_full (pm : PositionManager)
    (es : List (String × ExitState)) (p : PaperPosition) (currentPrice : Rat)
    (evaluation : ExitEvaluation) (r : ExitReason) (now : Int)
    (hst : p.status = PosStatus.opened)
    (hlk : alookup p.id pm.positions = some p)
    (hp : evaluation.shouldPartialExit = true)
    (hf : evaluation.shouldFullExit = true)
    (hr : evaluation.reason = some r) :
    ∃ p1,
      alookup p.id (pm.executePartialExit p.id currentPrice now).positions = some p1 ∧
      p1.status = PosStatus.partialed ∧
      p1.positionSizeSOL = p.positionSizeSOL ∧
      p1.remainingSizeSOL = p.remainingSizeSOL - p.positionSizeSOL * (1/2) ∧
      p1.realizedPnL = p.realizedPnL +
        p.positionSizeSOL * (1/2) * ((currentPrice - p.entryPrice) / p.entryPrice) ∧
      executeExit pm es p currentPrice evaluation now =
        ((pm.executePartialExit p.id currentPrice now).closePosition
            p.id currentPrice r now,
          aerase p.id es) ∧
      ∃ p2,
        ((pm.executePartialExit p.id currentPrice now).closePosition
            p.id currentPrice r now).closedPositions =
          pm.closedPositions ++ [p2] ∧
        alookup p.id ((pm.executePartialExit p.id currentPrice now).closePosition
            p.id currentPrice r now).positions = none ∧
        p2.status = PosStatus.closed ∧
        p2.remainingSizeSOL = 0 ∧
        p2.exitReason = some r ∧
        p2.realizedPnL = p1.realizedPnL +
          p1.remainingSizeSOL * ((currentPrice - p.entryPrice) / p.entryPrice) := by
  have hnc : ¬ p.status = PosStatus.closed := by
    rw [hst]
    intro hcc
    cases hcc
  have hpm1 : pm.executePartialExit p.id currentPrice now =
      { pm with positions := aset p.id (partialUpdate p currentPrice now) pm.positions } := by
    simp [PositionManager.executePartialExit, hlk, hnc, partialUpdate]
  have hlk1 : alookup p.id (pm.executePartialExit p.id currentPrice now).positions =
      some (partialUpdate p currentPrice now) := by
    rw [hpm1]
    exact alookup_aset_self _ _ _
  have hnc1 : ¬ (partialUpdate p currentPrice now).status = PosStatus.closed := by
    intro hcc
    cases hcc
  have hclose : (pm.executePartialExit p.id currentPrice now).closePosition
      p.id currentPrice r now =
      { pm with
        positions := aerase p.id (aset p.id (partialUpdate p currentPrice now) pm.positions)
        closedPositions :=
          pm.closedPositions ++ [closeUpdate (partialUpdate p currentPrice now) currentPrice r now]
        tokenToPosition := aerase p.tokenAddress pm.tokenToPosition } := by
    rw [hpm1]
    simp [PositionManager.closePosition, alookup_aset_self, hnc1, closeUpdate, partialUpdate]
  refine ⟨partialUpdate p currentPrice now, hlk1, rfl, rfl,
    by norm_num [partialUpdate, CONFIG.partialExitPercent],
    by norm_num [partialUpdate, CONFIG.partialExitPercent], ?_, ?_⟩
  · simp only [executeExit, hp, hst, and_self, if_true, hlk1, hf, hr]
  · refine ⟨closeUpdate (partialUpdate p currentPrice now) currentPrice r now, ?_, ?_,
      rfl, rfl, rfl, rfl⟩
    · rw [hclose]
    · rw [hclose]
      exact alookup_aerase_self _ _

/-- Witness for C4 at a concrete input: the evaluation flagging both exits on
the open position `pos1` executes the partial exit and then the close. -/
theorem executeExit_partial_then_full_witness :
    executeExit wPm [("pos1", wExitState)] wPos (1/2)
        { shouldPartialExit := true, shouldFullExit := true,
          reason := some ExitReason.profitTargetFull } 1000000 =
      ((wPm.executePartialExit wPos.id (1/2) 1000000).closePosition
          wPos.id (1/2) ExitReason.profitTargetFull 1000000,
        aerase wPos.id [("pos1", wExitState)]) := by
  obtain ⟨p1, h1, h2, h3, h4, h5, h6, h7⟩ :=
    executeExit_partial_then_full wPm [("pos1", wExitState)] wPos (1/2)
      { shouldPartialExit := true, shouldFullExit := true,
        reason := some ExitReason.profitTargetFull }
      ExitReason.profitTargetFull 1000000 rfl rfl rfl rfl rfl
  exact h6

/-! ## Claim C5 — the position lifecycle is monotone and closed is terminal -/

theorem statusRank_le_three (s : Option PosStatus) : statusRank s ≤ 3 := by
  cases s with
  | none => simp [statusRank]
  | some st => cases st <;> simp [statusRank]

/-- Two managers with the same binding for `j` and the same archive give `j`
the same stage. -/
theorem statusOf_congr (pm pm2 : PositionManager) (j : String)
    (hpos : alookup j pm2.positions = alookup j pm.positions)
    (hclosed : pm2.closedPositions = pm.closedPositions) :
    statusOf pm2 j = statusOf pm j := by
  unfold statusOf
  rw [hpos, hclosed]

/-- Keeping `j`'s binding and only growing the archive never lowers `j`'s
stage. -/
theorem statusRank_le_of_grow (pm pm2 : PositionManager) (j : String)
    (hpos : alookup j pm2.positions = alookup j pm.positions)
    (hclosed : ∀ q ∈ pm.closedPositions, q ∈ pm2.closedPositions) :
    statusRank (statusOf pm j) ≤ statusRank (statusOf pm2 j) := by
  unfold statusOf
  rw [hpos]
  cases h : alookup j pm.positions with
  | some p => exact le_refl _
  | none =>
    by_cases ha : pm.closedPositions.any (fun q => decide (q.id = j)) = true
    · rw [if_pos ha]
      have ha2 : pm2.closedPositions.any (fun q => decide (q.id = j)) = true := by
        rcases List.any_eq_true.mp ha with ⟨q, hq, hid⟩
        exact List.any_eq_true.mpr ⟨q, hclosed q hq, hid⟩
      rw [if_pos ha2]
    · rw [if_neg ha]
      exact Nat.zero_le _

theorem executePartialExit_noop_none (pm : PositionManager) (pid : String)
    (cp : Rat) (now : Int) (h : alookup pid pm.positions = none) :
    pm.executePartialExit pid cp now = pm := by
  simp [PositionManager.executePartialExit, h]

theorem executePartialExit_noop_closed (pm : PositionManager) (pid : String)
    (cp : Rat) (now : Int) (p : PaperPosition)
    (hlk : alookup pid pm.positions = some p) (hc : p.status = PosStatus.closed) :
    pm.executePartialExit pid cp now = pm := by
  simp [PositionManager.executePartialExit, hlk, hc]

theorem executePartialExit_eq (pm : PositionManager) (pid : String) (cp : Rat)
    (now : Int) (p : PaperPosition) (hlk : alookup pid pm.positions = some p)
    (hc : ¬ p.status = PosStatus.closed) :
    pm.executePartialExit pid cp now =
      { pm with positions := aset pid (partialUpdate p cp now) pm.positions } := by
  simp [PositionManager.executePartialExit, hlk, hc, partialUpdate]

theorem closePosition_noop_none (pm : PositionManager) (pid : String) (cp : Rat)
    (r : ExitReason) (now : Int) (h : alookup pid pm.positions = none) :
    pm.closePosition pid cp r now = pm := by
  simp [PositionManager.closePosition, h]

theorem closePosition_noop_closed (pm : PositionManager) (pid : String) (cp : Rat)
    (r : ExitReason) (now : Int) (p : PaperPosition)
    (hlk : alookup pid pm.positions = some p) (hc : p.status = PosStatus.closed) :
    pm.closePosition pid cp r now = pm := by
  simp [PositionManager.closePosition, hlk, hc]

theorem closePosition_eq (pm : PositionManager) (pid : String) (cp : Rat)
    (r : ExitReason) (now : Int) (p : PaperPosition)
    (hlk : alookup pid pm.positions = some p)
    (hc : ¬ p.status = PosStatus.closed) :
    pm.closePosition pid cp r now =
      { pm with
        positions := aerase pid pm.positions
        closedPositions := pm.closedPositions ++ [closeUpdate p cp r now]
        tokenToPosition := aerase p.tokenAddress pm.tokenToPosition } := by
  simp [PositionManager.closePosition, hlk, hc, closeUpdate]

theorem statusRank_statusOf_partialExit (pm : PositionManager) (pid : String)
    (cp : Rat) (now : Int) (j : String) :
    statusRank (statusOf pm j) ≤
      statusRank (statusOf (pm.executePartialExit pid cp now) j) := by
  cases hlk : alookup pid pm.positions with
  | none =>
    rw [executePartialExit_noop_none pm pid cp now hlk]
  | some p =>
    by_cases hc : p.status = PosStatus.closed
    · rw [executePartialExit_noop_closed pm pid cp now p hlk hc]
    · rw [executePartialExit_eq pm pid cp now p hlk hc]
      by_cases hj : pid = j
      · subst hj
        simp only [statusOf, alookup_aset_self, hlk]
        cases hs : p.status with
        | opened => simp [statusRank, partialUpdate]
        | partialed => simp [statusRank, partialUpdate]
        | closed => exact absurd hs hc
      · have hcongr := statusOf_congr pm
          { pm with positions := aset pid (partialUpdate p cp now) pm.positions } j
          (alookup_aset_other pid j _ pm.positions hj) rfl
        rw [hcongr]

theorem statusRank_statusOf_closePosition (pm : PositionManager) (pid : String)
    (cp : Rat) (r : ExitReason) (now : Int) (j : String) (hk : KeysMatch pm) :
    statusRank (statusOf pm j) ≤
      statusRank (statusOf (pm.closePosition pid cp r now) j) := by
  cases hlk : alookup pid pm.positions with
  | none =>
    rw [closePosition_noop_none pm pid cp r now hlk]
  | some p =>
    by_cases hc : p.status = PosStatus.closed
    · rw [closePosition_noop_closed pm pid cp r now p hlk hc]
    · rw [closePosition_eq pm pid cp r now p hlk hc]
      by_cases hj : pid = j
      · subst hj
        have hid : p.id = pid := hk pid p hlk
        have hany : ((pm.closedPositions ++ [closeUpdate p cp r now]).any
            (fun q => decide (q.id = pid))) = true := by
          refine List.any_eq_true.mpr ⟨closeUpdate p cp r now, ?_, ?_⟩
          · simp
          · simp [closeUpdate, hid]
        simp only [statusOf, alookup_aerase_self, hlk, hany, if_true]
        exact statusRank_le_three _
      · refine statusRank_le_of_grow pm _ j ?_ ?_
        · exact alookup_aerase_other pid j pm.positions hj
        · intro q hq
          simp [hq]

theorem statusRank_statusOf_updatePnL (pm : PositionManager) (pid : String)
    (cp : Rat) (j : String) :
    statusRank (statusOf pm j) ≤
      statusRank (statusOf (pm.updateUnrealizedPnL pid cp) j) := by
  unfold PositionManager.updateUnrealizedPnL
  cases hlk : alookup pid pm.positions with
  | none => exact le_refl _
  | some p =>
    by_cases hc : p.status = PosStatus.closed
    · simp only [hc, if_pos]
      exact le_refl _
    · simp only [if_neg hc]
      by_cases hgt : (cp - p.entryPrice) / p.entryPrice * 100 > p.maxUnrealizedPnL
      · simp only [if_pos hgt]
        by_cases hj : pid = j
        · subst hj
          simp only [statusOf, alookup_aset_self, hlk]
          exact le_refl _
        · have hcongr := statusOf_congr pm
            { pm with positions := aset pid ({ p with maxUnrealizedPnL := (cp - p.entryPrice) / p.entryPrice * 100 }) pm.positions } j
            (alookup_aset_other pid j _ pm.positions hj) rfl
          rw [hcongr]
      · simp only [if_neg hgt]
        exact le_refl _

theorem openPosition_existing (pm : PositionManager) (tok : String) (ep sc : Rat)
    (nid : String) (now : Int) (eid : String) (ex : PaperPosition)
    (hm : alookup tok pm.tokenToPosition = some eid)
    (hp : alookup eid pm.positions = some ex)
    (hs : ¬ ex.status = PosStatus.closed) :
    pm.openPosition tok ep sc nid now = (ex, pm) := by
  simp [PositionManager.openPosition, hm, hp, hs]

theorem openPosition_create (pm : PositionManager) (tok : String) (ep sc : Rat)
    (nid : String) (now : Int)
    (h : alookup tok pm.tokenToPosition = none ∨
      ∃ eid, alookup tok pm.tokenToPosition = some eid ∧
        (alookup eid pm.positions = none ∨
          ∃ ex, alookup eid pm.positions = some ex ∧ ex.status = PosStatus.closed)) :
    pm.openPosition tok ep sc nid now =
      (PositionManager.mkPosition tok ep sc nid now,
        { pm with
          positions := aset nid (PositionManager.mkPosition tok ep sc nid now) pm.positions
          tokenToPosition := aset tok nid pm.tokenToPosition }) := by
  rcases h with h | ⟨eid, hm, h2⟩
  · simp [PositionManager.openPosition, h, PositionManager.mkPosition]
  · rcases h2 with h2 | ⟨ex, hp, hs⟩
    · simp [PositionManager.openPosition, hm, h2, PositionManager.mkPosition]
    · simp [PositionManager.openPosition, hm, hp, hs, PositionManager.mkPosition]

theorem openPosition_snd_cases (pm : PositionManager) (tok : String) (ep sc : Rat)
    (nid : String) (now : Int) :
    (pm.openPosition tok ep sc nid now).2 = pm ∨
    (pm.openPosition tok ep sc nid now).2 =
      { pm with
        positions := aset nid (PositionManager.mkPosition tok ep sc nid now) pm.positions
        tokenToPosition := aset tok nid pm.tokenToPosition } := by
  cases hm : alookup tok pm.tokenToPosition with
  | none =>
    right
    rw [openPosition_create pm tok ep sc nid now (Or.inl hm)]
  | some eid =>
    cases hp : alookup eid pm.positions with
    | none =>
      right
      rw [openPosition_create pm tok ep sc nid now (Or.inr ⟨eid, hm, Or.inl hp⟩)]
    | some ex =>
      by_cases hs : ex.status = PosStatus.closed
      · right
        rw [openPosition_create pm tok ep sc nid now (Or.inr ⟨eid, hm, Or.inr ⟨ex, hp, hs⟩⟩)]
      · left
        rw [openPosition_existing pm tok ep sc nid now eid ex hm hp hs]

theorem statusRank_statusOf_openPosition (pm : PositionManager) (tok : String)
    (ep sc : Rat) (nid : String) (now : Int) (j : String)
    (hfresh1 : alookup nid pm.positions = none)
    (hfresh2 : ∀ q ∈ pm.closedPositions, q.id ≠ nid) :
    statusRank (statusOf pm j) ≤
      statusRank (statusOf (pm.openPosition tok ep sc nid now).2 j) := by
  rcases openPosition_snd_cases pm tok ep sc nid now with heq | heq
  · rw [heq]
  · rw [heq]
    by_cases hj : nid = j
    · subst hj
      have hany : (pm.closedPositions.any (fun q => decide (q.id = nid))) = false := by
        rw [List.any_eq_false]
        intro q hq
        simp only [decide_eq_true_eq]
        exact hfresh2 q hq
      simp only [statusOf, alookup_aset_self, hfresh1, hany, Bool.false_eq_true, if_false]
      exact Nat.zero_le _
    · have hcongr := statusOf_congr pm
        { pm with
          positions := aset nid (PositionManager.mkPosition tok ep sc nid now) pm.positions
          tokenToPosition := aset tok nid pm.tokenToPosition } j
        (alookup_aset_other nid j _ pm.positions hj) rfl
      rw [hcongr]

theorem keysMatch_partialExit (pm : PositionManager) (pid : String) (cp : Rat)
    (now : Int) (hk : KeysMatch pm) :
    KeysMatch (pm.executePartialExit pid cp now) := by
  cases hlk : alookup pid pm.positions with
  | none =>
    rw [executePartialExit_noop_none pm pid cp now hlk]
    exact hk
  | some p =>
    by_cases hc : p.status = PosStatus.closed
    · rw [executePartialExit_noop_closed pm pid cp now p hlk hc]
      exact hk
    · rw [executePartialExit_eq pm pid cp now p hlk hc]
      intro k q hq
      by_cases hj : pid = k
      · subst hj
        simp only [alookup_aset_self, Option.some.injEq] at hq
        rw [← hq]
        exact hk pid p hlk
      · simp only [alookup_aset_other pid k _ pm.positions hj] at hq
        exact hk k q hq

theorem keysMatch_closePosition (pm : PositionManager) (pid : String) (cp : Rat)
    (r : ExitReason) (now : Int) (hk : KeysMatch pm) :
    KeysMatch (pm.closePosition pid cp r now) := by
  cases hlk : alookup pid pm.positions with
  | none =>
    rw [closePosition_noop_none pm pid cp r now hlk]
    exact hk
  | some p =>
    by_cases hc : p.status = PosStatus.closed
    · rw [closePosition_noop_closed pm pid cp r now p hlk hc]
      exact hk
    · rw [closePosition_eq pm pid cp r now p hlk hc]
      intro k q hq
      simp only [alookup_aerase] at hq
      by_cases hj : pid = k
      · rw [if_pos hj] at hq
        cases hq
      · rw [if_neg hj] at hq
        exact hk k q hq

theorem keysMatch_updatePnL (pm : PositionManager) (pid : String) (cp : Rat)
    (hk : KeysMatch pm) : KeysMatch (pm.updateUnrealizedPnL pid cp) := by
  unfold PositionManager.updateUnrealizedPnL
  cases hlk : alookup pid pm.positions with
  | none => exact hk
  | some p =>
    by_cases hc : p.status = PosStatus.closed
    · simp only [hc, if_pos]
      exact hk
    · simp only [if_neg hc]
      by_cases hgt : (cp - p.entryPrice) / p.entryPrice * 100 > p.maxUnrealizedPnL
      · simp only [if_pos hgt]
        intro k q hq
        by_cases hj : pid = k
        · subst hj
          simp only [alookup_aset_self, Option.some.injEq] at hq
          rw [← hq]
          exact hk pid p hlk
        · simp only [alookup_aset_other pid k _ pm.positions hj] at hq
          exact hk k q hq
      · simp only [if_neg hgt]
        exact hk

theorem keysMatch_openPosition (pm : PositionManager) (tok : String)
    (ep sc : Rat) (nid : String) (now : Int) (hk : KeysMatch pm) :
    KeysMatch (pm.openPosition tok ep sc nid now).2 := by
  rcases openPosition_snd_cases pm tok ep sc nid now with heq | heq
  · rw [heq]
    exact hk
  · rw [heq]
    intro k q hq
    by_cases hj : nid = k
    · subst hj
      simp only [alookup_aset_self, Option.some.injEq] at hq
      rw [← hq]
      rfl
    · simp only [alookup_aset_other nid k _ pm.positions hj] at hq
      exact hk k q hq

theorem statusRank_statusOf_executeExit (pm : PositionManager)
    (es : List (String × ExitState)) (p : PaperPosition) (cp : Rat)
    (ev : ExitEvaluation) (now : Int) (j : String) (hk : KeysMatch pm) :
    statusRank (statusOf pm j) ≤
      statusRank (statusOf (executeExit pm es p cp ev now).1 j) := by
  unfold executeExit
  by_cases h1 : ev.shouldPartialExit = true ∧ p.status = PosStatus.opened
  · simp only [if_pos h1]
    cases hlk : alookup p.id (pm.executePartialExit p.id cp now).positions with
    | none =>
      simp only []
      exact statusRank_statusOf_partialExit pm p.id cp now j
    | some p2 =>
      cases hf : ev.shouldFullExit with
      | false =>
        cases hr : ev.reason <;>
          simpa using statusRank_statusOf_partialExit pm p.id cp now j
      | true =>
        cases hr : ev.reason with
        | none => simpa using statusRank_statusOf_partialExit pm p.id cp now j
        | some r =>
          simp only []
          refine le_trans (statusRank_statusOf_partialExit pm p.id cp now j) ?_
          exact statusRank_statusOf_closePosition _ p.id cp r now j
            (keysMatch_partialExit pm p.id cp now hk)
  · simp only [if_neg h1]
    cases hf : ev.shouldFullExit with
    | false => cases hr : ev.reason <;> simp
    | true =>
      cases hr : ev.reason with
      | none => simp
      | some r =>
        simpa using statusRank_statusOf_closePosition pm p.id cp r now j hk

theorem keysMatch_executeExit (pm : PositionManager)
    (es : List (String × ExitState)) (p : PaperPosition) (cp : Rat)
    (ev : ExitEvaluation) (now : Int) (hk : KeysMatch pm) :
    KeysMatch (executeExit pm es p cp ev now).1 := by
  unfold executeExit
  by_cases h1 : ev.shouldPartialExit = true ∧ p.status = PosStatus.opened
  · simp only [if_pos h1]
    cases hlk : alookup p.id (pm.executePartialExit p.id cp now).positions with
    | none =>
      simp only []
      exact keysMatch_partialExit pm p.id cp now hk
    | some p2 =>
      cases hf : ev.shouldFullExit with
      | false =>
        cases hr : ev.reason <;>
          simpa using keysMatch_partialExit pm p.id cp now hk
      | true =>
        cases hr : ev.reason with
        | none => simpa using keysMatch_partialExit pm p.id cp now hk
        | some r =>
          simp only []
          exact keysMatch_closePosition _ p.id cp r now
            (keysMatch_partialExit pm p.id cp now hk)
  · simp only [if_neg h1]
    cases hf : ev.shouldFullExit with
    | false => cases hr : ev.reason <;> simpa using hk
    | true =>
      cases hr : ev.reason with
      | none => simpa using hk
      | some r => simpa using keysMatch_closePosition pm p.id cp r now hk

theorem keysMatch_applyOp (pm : PositionManager) (op : Op) (hk : KeysMatch pm) :
    KeysMatch (applyOp pm op) := by
  cases op with
  | openPos tok ep sc nid now => exact keysMatch_openPosition pm tok ep sc nid now hk
  | partialExit pid cp now => exact keysMatch_partialExit pm pid cp now hk
  | closePos pid cp r now => exact keysMatch_closePosition pm pid cp r now hk
  | updatePnL pid cp => exact keysMatch_updatePnL pm pid cp hk
  | execExit pid cp ev now =>
    cases hlk : alookup pid pm.positions with
    | none =>
      simp only [applyOp, hlk]
      exact hk
    | some p =>
      simp only [applyOp, hlk]
      exact keysMatch_executeExit pm [] p cp ev now hk

theorem statusRank_statusOf_applyOp (pm : PositionManager) (op : Op) (j : String)
    (hk : KeysMatch pm) (hf : OpFresh pm op) :
    statusRank (statusOf pm j) ≤ statusRank (statusOf (applyOp pm op) j) := by
  cases op with
  | openPos tok ep sc nid now =>
    exact statusRank_statusOf_openPosition pm tok ep sc nid now j hf.1 hf.2
  | partialExit pid cp now => exact statusRank_statusOf_partialExit pm pid cp now j
  | closePos pid cp r now => exact statusRank_statusOf_closePosition pm pid cp r now j hk
  | updatePnL pid cp => exact statusRank_statusOf_updatePnL pm pid cp j
  | execExit pid cp ev now =>
    cases hlk : alookup pid pm.positions with
    | none =>
      simp only [applyOp, hlk]
      exact le_refl _
    | some p =>
      simp only [applyOp, hlk]
      exact statusRank_statusOf_executeExit pm [] p cp ev now j hk

theorem statusRank_statusOf_applyOps (ops : List Op) (pm : PositionManager)
    (j : String) (hk : KeysMatch pm) (hf : OpsFresh pm ops) :
    statusRank (statusOf pm j) ≤ statusRank (statusOf (applyOps pm ops) j) := by
  induction ops generalizing pm with
  | nil => exact le_refl _
  | cons op rest ih =>
    refine le_trans (statusRank_statusOf_applyOp pm op j hk hf.1) ?_
    exact ih (applyOp pm op) (keysMatch_applyOp pm op hk) hf.2

/-- C5: along every sequence of `openPosition` / `executePartialExit` /
`closePosition` / exit-evaluation operations, a position's lifecycle stage
only ever moves forward along `open -> partial -> closed` (no reverse
transition); for a missing or closed position, `executePartialExit` and
`closePosition` leave the manager entirely unchanged; and `openPosition` for a
token that already has a non-closed position returns that existing position
without changing the manager. -/
theorem positionLifecycle_monotone_and_closed_terminal :
    (∀ (pm : PositionManager) (ops : List Op) (j : String),
      KeysMatch pm → OpsFresh pm ops →
      statusRank (statusOf pm j) ≤ statusRank (statusOf (applyOps pm ops) j)) ∧
    (∀ (pm : PositionManager) (pid : String) (cp : Rat) (r : ExitReason) (now : Int),
      (alookup pid pm.positions = none ∨
        ∃ p, alookup pid pm.positions = some p ∧ p.status = PosStatus.closed) →
      pm.executePartialExit pid cp now = pm ∧ pm.closePosition pid cp r now = pm) ∧
    (∀ (pm : PositionManager) (tok : String) (ep sc : Rat) (nid : String) (now : Int)
      (eid : String) (p : PaperPosition),
      alookup tok pm.tokenToPosition = some eid →
      alookup eid pm.positions = some p →
      p.status ≠ PosStatus.closed →
      pm.openPosition tok ep sc nid now = (p, pm)) := by
  refine ⟨?_, ?_, ?_⟩
  · intro pm ops j hk hf
    exact statusRank_statusOf_applyOps ops pm j hk hf
  · intro pm pid cp r now h
    rcases h with h | ⟨p, hlk, hc⟩
    · constructor <;> simp [PositionManager.executePartialExit,
        PositionManager.closePosition, h]
    · constructor <;> simp [PositionManager.executePartialExit,
        PositionManager.closePosition, hlk, hc]
  · intro pm tok ep sc nid now eid p hm hp hs
    simp [PositionManager.openPosition, hm, hp, hs]

/-! ## Claim C3 — the periodic tick executes no partial-only exit -/

/-- When the kill switch does not fire, it leaves the position manager
untouched. -/
theorem killCheck_pm_of_not_triggered (ks : List (String × KillState))
    (pm : PositionManager) (position : PaperPosition) (tracker : TokenTracker)
    (currentPrice : Rat) (latestTx : Option Transaction) (now : Int)
    (h : (killCheck ks pm position tracker currentPrice latestTx now).triggered = false) :
    (killCheck ks pm position tracker currentPrice latestTx now).pm = pm := by
  unfold killCheck at h ⊢
  cases hlk : alookup position.id ks with
  | none => simp [hlk]
  | some st =>
    simp only [hlk] at h ⊢
    by_cases h1 : now - tracker.lastTxTimestamp ≥ CONFIG.killNoTxSeconds * 1000
    · simp [h1] at h
    · simp only [if_neg h1] at h ⊢
      cases latestTx with
      | none => rfl
      | some tx =>
        by_cases h2 : tx.solAmount > CONFIG.whaleBuyThreshold
        · simp [h2] at h
        · by_cases h3 : tracker.devWallet = some tx.buyerWallet ∧ tracker.devBuyCount > 1
          · simp [h2, h3] at h
          · simp [h2, h3]

/-- `updateUnrealizedPnL` preserves every position's status, remaining size,
realized PnL and partial-exit fields. -/
theorem updateUnrealizedPnL_preserves_core (pm : PositionManager) (pid : String)
    (cp : Rat) (j : String) (q0 : PaperPosition)
    (h : alookup j pm.positions = some q0) :
    ∃ q, alookup j (pm.updateUnrealizedPnL pid cp).positions = some q ∧
      q.status = q0.status ∧ q.remainingSizeSOL = q0.remainingSizeSOL ∧
      q.realizedPnL = q0.realizedPnL ∧ q.partialExitPrice = q0.partialExitPrice ∧
      q.partialExitTimestamp = q0.partialExitTimestamp := by
  unfold PositionManager.updateUnrealizedPnL
  cases hlk : alookup pid pm.positions with
  | none => exact ⟨q0, h, rfl, rfl, rfl, rfl, rfl⟩
  | some p =>
    by_cases hc : p.status = PosStatus.closed
    · simp only [hc, if_true, if_pos]
      exact ⟨q0, h, rfl, rfl, rfl, rfl, rfl⟩
    · simp only [if_neg hc]
      by_cases hgt : (cp - p.entryPrice) / p.entryPrice * 100 > p.maxUnrealizedPnL
      · simp only [if_pos hgt]
        by_cases hj : pid = j
        · subst hj
          rw [hlk] at h
          injection h with h
          subst h
          exact ⟨_, alookup_aset_self _ _ _, rfl, rfl, rfl, rfl, rfl⟩
        · refine ⟨q0, ?_, rfl, rfl, rfl, rfl, rfl⟩
          rw [alookup_aset_other _ _ _ _ hj]
          exact h
      · simp only [if_neg hgt]
        exact ⟨q0, h, rfl, rfl, rfl, rfl, rfl⟩

/-- `evaluateExit` touches the manager only through `updateUnrealizedPnL`:
every position's status, remaining size, realized PnL and partial-exit fields
survive it. -/
theorem evaluateExit_preserves_core (es : List (String × ExitState))
    (pm : PositionManager) (position : PaperPosition) (currentPrice : Rat)
    (m : RollingMetrics) (tracker : TokenTracker) (now : Int) (j : String)
    (q0 : PaperPosition) (h : alookup j pm.positions = some q0) :
    ∃ q, alookup j (evaluateExit es pm position currentPrice m tracker now).pm.positions =
        some q ∧
      q.status = q0.status ∧ q.remainingSizeSOL = q0.remainingSizeSOL ∧
      q.realizedPnL = q0.realizedPnL ∧ q.partialExitPrice = q0.partialExitPrice ∧
      q.partialExitTimestamp = q0.partialExitTimestamp := by
  unfold evaluateExit
  cases hlk : alookup position.id es with
  | none => exact ⟨q0, h, rfl, rfl, rfl, rfl, rfl⟩
  | some st =>
    simp only []
    exact updateUnrealizedPnL_preserves_core pm position.id currentPrice j q0 h

/-- C3 (amended): on the periodic tick (`checkStalePositions`), a position
whose exit evaluation reports no full-exit trigger undergoes NO exit — even
when the PnL is at or beyond the +120 percent partial threshold and the
status is `open`: the step leaves every position's status, remaining size,
realized PnL and partial-exit fields unchanged (only the running maximum
unrealized PnL and the tracking state may update). On the tick, a partial
exit can execute only together with a full exit. -/
theorem staleStep_no_exit_without_full_trigger (e : Engine)
    (position : PaperPosition) (tracker : TokenTracker) (now : Int)
    (htr : alookup position.tokenAddress e.trackers = some tracker)
    (hkill : (killCheck e.killStates e.pm position tracker
        ((tracker.calculateMetrics now).avgBuySize) none now).triggered = false)
    (hfull : (evaluateExit e.exitStates e.pm position
        ((tracker.calculateMetrics now).avgBuySize) (tracker.calculateMetrics now)
        tracker now).eval.shouldFullExit = false) :
    ∀ j q0, alookup j e.pm.positions = some q0 →
      ∃ q, alookup j (e.staleStep position now).pm.positions = some q ∧
        q.status = q0.status ∧ q.remainingSizeSOL = q0.remainingSizeSOL ∧
        q.realizedPnL = q0.realizedPnL ∧ q.partialExitPrice = q0.partialExitPrice ∧
        q.partialExitTimestamp = q0.partialExitTimestamp := by
  intro j q0 h
  have hpm := killCheck_pm_of_not_triggered e.killStates e.pm position tracker
    ((tracker.calculateMetrics now).avgBuySize) none now hkill
  simp only [Engine.staleStep, htr, hkill, Bool.false_eq_true, if_false, hpm]
  cases hre : (evaluateExit e.exitStates e.pm position
      ((tracker.calculateMetrics now).avgBuySize) (tracker.calculateMetrics now)
      tracker now).eval.reason with
  | none =>
    simp only [hfull, hre]
    exact evaluateExit_preserves_core _ _ _ _ _ _ _ _ _ h
  | some r =>
    simp only [hfull, hre]
    exact evaluateExit_preserves_core _ _ _ _ _ _ _ _ _ h

/-- Counterexample to C3 as stated: in the concrete engine `wEngine` the open
position `pos1` has a PnL of 150 percent — at or above the +120 percent
partial-exit threshold — and status `open`, yet the periodic tick
(`checkStalePositions`) executes no partial exit: the status stays `open`,
no partial-exit price is recorded, the remaining size stays 1 and nothing is
archived. -/
theorem checkStalePositions_skips_partial_only_exit :
    ((wTracker.calculateMetrics 1000000).avgBuySize - wPos.entryPrice) /
        wPos.entryPrice * 100 ≥ CONFIG.partialProfitPercent ∧
    wPos.status = PosStatus.opened ∧
    (alookup "pos1" ((wEngine.checkStalePositions 1000000)).pm.positions).map
        PaperPosition.status = some PosStatus.opened ∧
    (alookup "pos1" ((wEngine.checkStalePositions 1000000)).pm.positions).map
        PaperPosition.partialExitPrice = some none ∧
    (alookup "pos1" ((wEngine.checkStalePositions 1000000)).pm.positions).map
        PaperPosition.remainingSizeSOL = some 1 ∧
    ((wEngine.checkStalePositions 1000000)).pm.closedPositions = [] := by
  norm_num +decide [wEngine, wPm, wPos, wTracker, wTx1, wTx2, wExitState, wKillState,
    TokenTracker.create, TokenTracker.addTransaction, TokenTracker.calculateMetrics,
    MultiWindowBuffer.add, MultiWindowBuffer.evictOld, MultiWindowBuffer.getBuySizeStats,
    MultiWindowBuffer.getWindow, MultiWindowBuffer.countWindow, MultiWindowBuffer.countRange,
    MultiWindowBuffer.getRange, MultiWindowBuffer.getUniqueBuyers, MultiWindowBuffer.getRepeatBuyers,
    MultiWindowBuffer.getTxIntervalMean, MultiWindowBuffer.getTxIntervalDelta,
    sortByTs, insertByTs, consecutiveDiffs,
    CONFIG.windowShort, CONFIG.windowMedium, CONFIG.windowLong, CONFIG.windowBuyers,
    CONFIG.partialProfitPercent, CONFIG.fullProfitPercent, CONFIG.noActivitySeconds,
    CONFIG.txDecreaseThreshold, CONFIG.killNoTxSeconds, CONFIG.whaleBuyThreshold,
    CONFIG.partialExitPercent,
    Engine.checkStalePositions, Engine.staleStep, PositionManager.getOpenPositions,
    killCheck, evaluateExit, executeExit, initExitState,
    PositionManager.updateUnrealizedPnL, PositionManager.executePartialExit,
    PositionManager.closePosition, PositionManager.getPositionByToken,
    alookup, aset, aerase, List.filter, List.dedup, List.foldl]

/-- Witness for the amended C3 at the concrete engine `wEngine`: the tick step
leaves the open position `pos1` (at 150 percent PnL) unchanged in status,
remaining size, realized PnL and partial-exit fields. -/
theorem staleStep_no_exit_without_full_trigger_witness :
    ∃ q, alookup "pos1" (wEngine.staleStep wPos 1000000).pm.positions = some q ∧
      q.status = wPos.status ∧ q.remainingSizeSOL = wPos.remainingSizeSOL ∧
      q.realizedPnL = wPos.realizedPnL ∧ q.partialExitPrice = wPos.partialExitPrice ∧
      q.partialExitTimestamp = wPos.partialExitTimestamp := by
  refine staleStep_no_exit_without_full_trigger wEngine wPos wTracker 1000000 rfl
    (by decide) ?_ "pos1" wPos rfl
  norm_num +decide [wEngine, wPm, wPos, wTracker, wTx1, wTx2, wExitState,
    TokenTracker.create, TokenTracker.addTransaction, TokenTracker.calculateMetrics,
    MultiWindowBuffer.add, MultiWindowBuffer.evictOld, MultiWindowBuffer.getBuySizeStats,
    MultiWindowBuffer.getWindow, MultiWindowBuffer.countWindow, MultiWindowBuffer.countRange,
    MultiWindowBuffer.getRange, MultiWindowBuffer.getUniqueBuyers, MultiWindowBuffer.getRepeatBuyers,
    MultiWindowBuffer.getTxIntervalMean, MultiWindowBuffer.getTxIntervalDelta,
    sortByTs, insertByTs, consecutiveDiffs,
    CONFIG.windowShort, CONFIG.windowMedium, CONFIG.windowLong, CONFIG.windowBuyers,
    CONFIG.partialProfitPercent, CONFIG.fullProfitPercent, CONFIG.noActivitySeconds,
    CONFIG.txDecreaseThreshold,
    evaluateExit, initExitState, PositionManager.updateUnrealizedPnL,
    alookup, aset, List.filter, List.dedup, List.foldl]

/-- Witness for C10 at a concrete input whose PnL (900 percent) is far beyond
both profit thresholds: the first evaluation still reports no exit. -/
theorem evaluateExit_first_call_no_exit_witness :
    ((1 : Rat) - wPos.entryPrice) / wPos.entryPrice * 100 ≥ CONFIG.fullProfitPercent ∧
    evaluateExit [] wPm wPos 1 (wTracker.calculateMetrics 1000000) wTracker 1000000 =
      { eval := { shouldPartialExit := false, shouldFullExit := false, reason := none }
        exitStates :=
          aset wPos.id (initExitState wPos.id (wTracker.calculateMetrics 1000000).txCount60s) []
        pm := wPm } := by
  refine ⟨by norm_num [wPos, CONFIG.fullProfitPercent], ?_⟩
  exact evaluateExit_first_call_no_exit [] wPm wPos 1
    (wTracker.calculateMetrics 1000000) wTracker 1000000 rfl

end PumpFun
